import Mathlib

/-!
# CmdPlaceSchematicNetPoint

A shallow embedding of
`libs/librepcb/projecteditor/cmd/cmdplaceschematicnetpoint.cpp`
(LibrePCB): the undo command group that places a net point on a schematic.

The file has three parts:

* the embedding of the command (`performExecute`, `getOrCreateNewNetSignal`,
  `createNewNetPoint`) over abstract collaborators (`Collaborators`): the
  Circuit and Schematic queries and the child commands, whose code is not part
  of the translated sources;
* a concrete Circuit/NetGraph (`Project`, `stdCollaborators`) following the
  interface contracts of the specification, on which the embedding can be run;
* the theorems.
-/

namespace LibrePCB

/-! ## Data model -/

/-- A scene position (`Point`): integer coordinates. -/
structure Point where
  x : Int
  y : Int
deriving DecidableEq, Repr

/-- The child commands which `CmdPlaceSchematicNetPoint` constructs, with their
constructor arguments and the member their getter reads after `execute()`.
`NC`, `NS`, `NP` are the types of the (non-null) references to a `NetClass`, a
`NetSignal` and an `SI_NetPoint`; a pointer that may be null is an `Option`.

* `CmdNetClassAdd name mNetClass`: `new CmdNetClassAdd(mCircuit, name)`,
  `getNetClass()` returns `mNetClass`;
* `CmdNetSignalAdd netclass name mNetSignal`: `name = none` is the two-argument
  constructor `CmdNetSignalAdd(mCircuit, netclass)` (auto-name), `name = some n`
  is `CmdNetSignalAdd(mCircuit, netclass, n)`; `getNetSignal()` returns
  `mNetSignal`;
* `CmdSchematicNetPointAdd netsignal position mNetPoint`:
  `new CmdSchematicNetPointAdd(mSchematic, netsignal, position)`,
  `getNetPoint()` returns `mNetPoint`;
* `CmdCombineAllNetSignalsUnderSchematicNetPoint netpoint`. -/
inductive UndoCommand (NC NS NP : Type) where
  | CmdNetClassAdd (name : String) (mNetClass : Option NC)
  | CmdNetSignalAdd (netclass : NC) (name : Option String) (mNetSignal : Option NS)
  | CmdSchematicNetPointAdd (netsignal : NS) (position : Point) (mNetPoint : Option NP)
  | CmdCombineAllNetSignalsUnderSchematicNetPoint (netpoint : NP)
deriving DecidableEq, Repr

namespace UndoCommand

variable {NC NS NP : Type}

/-- The getter `CmdNetClassAdd::getNetClass()` (line 112). -/
def getNetClass : UndoCommand NC NS NP → Option NC
  | CmdNetClassAdd _ mNetClass => mNetClass
  | _ => none

/-- The getter `CmdNetSignalAdd::getNetSignal()` (line 124). -/
def getNetSignal : UndoCommand NC NS NP → Option NS
  | CmdNetSignalAdd _ _ mNetSignal => mNetSignal
  | _ => none

/-- The getter `CmdSchematicNetPointAdd::getNetPoint()` (line 132). -/
def getNetPoint : UndoCommand NC NS NP → Option NP
  | CmdSchematicNetPointAdd _ _ mNetPoint => mNetPoint
  | _ => none

/-- A child command that creates an entity (net class, net signal or net
point), as opposed to the merge command. -/
def isCreation : UndoCommand NC NS NP → Bool
  | CmdCombineAllNetSignalsUnderSchematicNetPoint _ => false
  | _ => true

end UndoCommand

/-- Modelled from the spec: how one call of a child command's `execute()` ends
(§4.1: "`execute()`: performs the operation; returns a result indicating
whether any observable change occurred ...; fails with a propagated error if
any step fails"). The class `UndoCommand` is not part of the sources.

* `changed cmd s`: `execute()` returned `true`; the command object is now
  `cmd` and the Circuit/NetGraph is `s`;
* `unchanged cmd`: `execute()` returned `false`: no observable change
  occurred, the Circuit/NetGraph is as it was;
* `threw e s`: `execute()` threw `e` and left the Circuit/NetGraph as `s`. -/
inductive ChildExit (σ ε NC NS NP : Type) where
  | changed (cmd : UndoCommand NC NS NP) (s : σ)
  | unchanged (cmd : UndoCommand NC NS NP)
  | threw (e : ε) (s : σ)

/-- Modelled from the spec: the collaborators of §4.3 and §6, taken as
parameters because `Circuit`, `Schematic` and the four child commands are not
part of the sources. `σ` is the Circuit/NetGraph state, `ε` the type of the
exceptions.

* `getNetPointsAtScenePos`: "`pointsAt(position)` -> ordered sequence of
  NetPoint";
* `getNetSignalByName`, `getNetClassByName`: "lookup, no mutation";
* `execute`: `execute()` of a freshly constructed child command;
* `undo`: `undo()` of an executed child command. -/
structure Collaborators (σ ε NC NS NP : Type) where
  getNetPointsAtScenePos : σ → Point → List NP
  getNetSignalByName : σ → String → Option NS
  getNetClassByName : σ → String → Option NC
  execute : UndoCommand NC NS NP → σ → ChildExit σ ε NC NS NP
  undo : UndoCommand NC NS NP → σ → σ

/-- What happened during a run, in order (ghost state, not in the source):
the `execute()` of the new child `cmd` returned (`cmd1` is the command object
afterwards, `changed` the value returned), the `execute()` of the new child
`cmd` threw `e`, the scope guard fired (`performUndo()` was invoked), the
`undo()` of a child was called. -/
inductive Event (ε NC NS NP : Type) where
  | executed (cmd cmd1 : UndoCommand NC NS NP) (changed : Bool)
  | failed (cmd : UndoCommand NC NS NP) (e : ε)
  | rollback
  | undone (cmd : UndoCommand NC NS NP)
deriving DecidableEq, Repr

/-- The places where the run stops without an exception: a failing `Q_ASSERT`
(line 114, line 88) or the dereference of a null `netsignal` (line 84). -/
inductive Abort where
  | assertNetClass
  | nullNetSignal
  | assertNetPoint
deriving DecidableEq, Repr

/-- How a member function ends: it returns a value, throws an `Exception`, or
the program aborts. -/
inductive Exit (ε α : Type) where
  | returned (a : α)
  | threw (e : ε)
  | aborted (a : Abort)
deriving DecidableEq, Repr

/-- The command object together with the model it refers to.

* `project`: the Circuit and the Schematic (`mCircuit`, `mSchematic`);
* `mPosition`, `mNetClassName`, `mNetSignalName`, `mNetPoint`: the members set
  by the constructor (lines 57-63);
* `mChilds`: the child commands held by the base class `UndoCommandGroup`;
* `trace`: the events of the run so far (ghost state). -/
structure CmdPlaceSchematicNetPoint (σ ε NC NS NP : Type) where
  project : σ
  mPosition : Point
  mNetClassName : String
  mNetSignalName : String
  mNetPoint : Option NP
  mChilds : List (UndoCommand NC NS NP)
  trace : List (Event ε NC NS NP)

variable {σ ε NC NS NP : Type}

/-- The constructor (lines 57-63): `mNetPoint(nullptr)`, no child yet. -/
def CmdPlaceSchematicNetPoint.construct (schematic : σ) (pos : Point)
    (netclass netsignal : String) : CmdPlaceSchematicNetPoint σ ε NC NS NP :=
  { project := schematic, mPosition := pos, mNetClassName := netclass,
    mNetSignalName := netsignal, mNetPoint := none, mChilds := [], trace := [] }

/-! ## UndoCommandGroup -/

/-- Modelled from the spec: `UndoCommandGroup::execNewChildCmd`, which is not
part of the sources. It executes the new child at once. §4.1: "if a child's
`execute` fails, the group must not add that child to its undo list (only
successfully executed children are undone), must propagate the error to its
caller". A child whose `execute()` reports no change is not kept either, which
is how a group ends with zero children (§4.4 step 5: "an operation with zero
children is a no-op", §8: "the merge step has nothing to union, `execute()`
returns "no change" (zero children)"). -/
def execNewChildCmd (K : Collaborators σ ε NC NS NP) (cmd : UndoCommand NC NS NP)
    (self : CmdPlaceSchematicNetPoint σ ε NC NS NP) :
    Exit ε (UndoCommand NC NS NP) × CmdPlaceSchematicNetPoint σ ε NC NS NP :=
  match K.execute cmd self.project with
  | .changed cmd1 s =>
    (.returned cmd1, { self with project := s, mChilds := self.mChilds ++ [cmd1],
                                 trace := self.trace ++ [.executed cmd cmd1 true] })
  | .unchanged cmd1 =>
    (.returned cmd1, { self with trace := self.trace ++ [.executed cmd cmd1 false] })
  | .threw e s =>
    (.threw e, { self with project := s, trace := self.trace ++ [.failed cmd e] })

/-- Modelled from the spec: `UndoCommandGroup::getChildCount`, the number of
children the group holds. -/
def getChildCount (self : CmdPlaceSchematicNetPoint σ ε NC NS NP) : Nat :=
  self.mChilds.length

/-- One step of `performUndo`: `undo()` of one child. -/
def undoChild (K : Collaborators σ ε NC NS NP)
    (self : CmdPlaceSchematicNetPoint σ ε NC NS NP) (cmd : UndoCommand NC NS NP) :
    CmdPlaceSchematicNetPoint σ ε NC NS NP :=
  { self with project := K.undo cmd self.project, trace := self.trace ++ [.undone cmd] }

/-- Modelled from the spec: `UndoCommandGroup::performUndo`, which is not part
of the sources (§4.1: "`undo()`: for a group, undoes children in strictly
reverse order of execution"). -/
def performUndo (K : Collaborators σ ε NC NS NP)
    (self : CmdPlaceSchematicNetPoint σ ε NC NS NP) :
    CmdPlaceSchematicNetPoint σ ε NC NS NP :=
  self.mChilds.reverse.foldl (undoChild K) self

/-- Modelled from the spec: the destructor of the guard returned by
`scopeGuard` (`librepcb/common/scopeguard.h`, not part of the sources), §4.2:
"on normal scope exit after being explicitly dismissed, it is a no-op; on any
exit without dismissal (error path), it invokes the rollback action exactly
once". The rollback action of line 76 is `performUndo()`. -/
def scopeGuardExit (K : Collaborators σ ε NC NS NP) (dismissed : Bool)
    (self : CmdPlaceSchematicNetPoint σ ε NC NS NP) :
    CmdPlaceSchematicNetPoint σ ε NC NS NP :=
  if dismissed then self
  else performUndo K { self with trace := self.trace ++ [.rollback] }

/-! ## CmdPlaceSchematicNetPoint -/

/-- Sequencing of two statements: when the first returns, the second runs on
its result and on the command object as the first left it; an exception or an
abort of the first ends the sequence. -/
def Exit.andThen {S α β : Type} (r : Exit ε α × S) (next : α → S → Exit ε β × S) :
    Exit ε β × S :=
  match r with
  | (.returned a, s) => next a s
  | (.threw e, s) => (.threw e, s)
  | (.aborted a, s) => (.aborted a, s)

/-- `CmdPlaceSchematicNetPoint::getOrCreateNewNetSignal` (lines 101-126). -/
def getOrCreateNewNetSignal (K : Collaborators σ ε NC NS NP)
    (self : CmdPlaceSchematicNetPoint σ ε NC NS NP) :
    Exit ε (Option NS) × CmdPlaceSchematicNetPoint σ ε NC NS NP :=
  match K.getNetSignalByName self.project self.mNetSignalName with
  | some netsignal => (.returned (some netsignal), self)
  | none =>
    -- lines 107-113: the net class, looked up or added
    Exit.andThen
      (match K.getNetClassByName self.project self.mNetClassName with
       | some netclass => (.returned (some netclass), self)
       | none =>
         Exit.andThen (execNewChildCmd K (.CmdNetClassAdd self.mNetClassName none) self)
           fun cmd self1 => (.returned cmd.getNetClass, self1))
      fun netclass self1 =>
        match netclass with
        -- line 114: Q_ASSERT(netclass)
        | none => (.aborted .assertNetClass, self1)
        | some netclass =>
          -- lines 117-124
          Exit.andThen
            (execNewChildCmd K
              (if self1.mNetSignalName.isEmpty then .CmdNetSignalAdd netclass none none
               else .CmdNetSignalAdd netclass (some self1.mNetSignalName) none) self1)
            fun cmd self2 => (.returned cmd.getNetSignal, self2)

/-- `CmdPlaceSchematicNetPoint::createNewNetPoint` (lines 128-133). -/
def createNewNetPoint (K : Collaborators σ ε NC NS NP) (netsignal : NS)
    (self : CmdPlaceSchematicNetPoint σ ε NC NS NP) :
    Exit ε (Option NP) × CmdPlaceSchematicNetPoint σ ε NC NS NP :=
  Exit.andThen
    (execNewChildCmd K (.CmdSchematicNetPointAdd netsignal self.mPosition none) self)
    fun cmd self1 => (.returned cmd.getNetPoint, self1)

/-- The command constructed at lines 117-122: auto-naming when the requested
signal name is empty, with the requested name otherwise. -/
def netSignalAddCmd (netclass : NC) (name : String) : UndoCommand NC NS NP :=
  if name.isEmpty then .CmdNetSignalAdd netclass none none
  else .CmdNetSignalAdd netclass (some name) none

/-- Lines 78-87 of `performExecute`: the net points under the cursor are
queried and `mNetPoint` is assigned, either the point a new child command
created or the first point found. -/
def determineNetPoint (K : Collaborators σ ε NC NS NP)
    (self : CmdPlaceSchematicNetPoint σ ε NC NS NP) :
    Exit ε Unit × CmdPlaceSchematicNetPoint σ ε NC NS NP :=
  match K.getNetPointsAtScenePos self.project self.mPosition with
  | [] =>
    Exit.andThen (getOrCreateNewNetSignal K self) fun netsignal self1 =>
      match netsignal with
      -- line 84: `*netsignal` of a null pointer
      | none => (.aborted .nullNetSignal, self1)
      | some netsignal =>
        Exit.andThen (createNewNetPoint K netsignal self1) fun netpoint self2 =>
          (.returned (), { self2 with mNetPoint := netpoint })
  | first :: _ => (.returned (), { self with mNetPoint := some first })

/-- Lines 88-94 of `performExecute`: the assertion, the merge command, and
the return value. The `Bool` beside the command object tells whether
`undoScopeGuard.dismiss()` (line 93) was reached. -/
def mergeAndReturn (K : Collaborators σ ε NC NS NP)
    (self : CmdPlaceSchematicNetPoint σ ε NC NS NP) :
    Exit ε Bool × CmdPlaceSchematicNetPoint σ ε NC NS NP × Bool :=
  match self.mNetPoint with
  -- line 88: Q_ASSERT(mNetPoint)
  | none => (.aborted .assertNetPoint, self, false)
  | some netpoint =>
    -- line 91
    match execNewChildCmd K (.CmdCombineAllNetSignalsUnderSchematicNetPoint netpoint) self with
    | (.threw e, self1) => (.threw e, self1, false)
    | (.aborted a, self1) => (.aborted a, self1, false)
    -- lines 93-94
    | (.returned _, self1) => (.returned (decide (getChildCount self1 > 0)), self1, true)

/-- Lines 78-94 of `performExecute`, the scope in which the guard lives. The
`Bool` tells whether the guard was dismissed when the scope is left. -/
def performExecuteScope (K : Collaborators σ ε NC NS NP)
    (self : CmdPlaceSchematicNetPoint σ ε NC NS NP) :
    Exit ε Bool × CmdPlaceSchematicNetPoint σ ε NC NS NP × Bool :=
  match determineNetPoint K self with
  | (.threw e, self1) => (.threw e, self1, false)
  | (.aborted a, self1) => (.aborted a, self1, false)
  | (.returned (), self1) => mergeAndReturn K self1

/-- `CmdPlaceSchematicNetPoint::performExecute` (lines 73-95): the scope of
lines 78-94 under the guard of line 76. When the scope is left by a return or
by an exception the guard is destroyed (`scopeGuardExit`); an abort unwinds
nothing. -/
def performExecute (K : Collaborators σ ε NC NS NP)
    (self : CmdPlaceSchematicNetPoint σ ε NC NS NP) :
    Exit ε Bool × CmdPlaceSchematicNetPoint σ ε NC NS NP :=
  match performExecuteScope K self with
  | (.aborted a, self1, _) => (.aborted a, self1)
  | (.returned b, self1, dismissed) => (.returned b, scopeGuardExit K dismissed self1)
  | (.threw e, self1, dismissed) => (.threw e, scopeGuardExit K dismissed self1)

/-! ## Observations on a run -/

/-- The way a member function ended, without the value it returned. -/
def Exit.void {α : Type} : Exit ε α → Exit ε Unit
  | .returned _ => .returned ()
  | .threw e => .threw e
  | .aborted a => .aborted a

/-- The Circuit/NetGraph after the `undo()` of the children `cs`, the last
one first. -/
def undoAll (K : Collaborators σ ε NC NS NP) (cs : List (UndoCommand NC NS NP)) (s : σ) : σ :=
  cs.foldr (fun c m => K.undo c m) s

/-- The exceptions thrown by children during a run, in order. -/
def failures : List (Event ε NC NS NP) → List ε
  | [] => []
  | .failed _ e :: t => e :: failures t
  | _ :: t => failures t

/-- The child commands whose `execute()` was called during a run (whether it
returned or threw), in order, as they were constructed. -/
def submitted : List (Event ε NC NS NP) → List (UndoCommand NC NS NP)
  | [] => []
  | .executed c _ _ :: t => c :: submitted t
  | .failed c _ :: t => c :: submitted t
  | _ :: t => submitted t

/-- The number of times the scope guard fired (the rollback action
`performUndo()` was invoked) during a run. -/
def rollbacks : List (Event ε NC NS NP) → Nat
  | [] => 0
  | .rollback :: t => rollbacks t + 1
  | _ :: t => rollbacks t

/-- The children the group holds after the events of a run: the command
objects of the children whose `execute()` returned `true`, in order. -/
def kept : List (Event ε NC NS NP) → List (UndoCommand NC NS NP)
  | [] => []
  | .executed _ c true :: t => c :: kept t
  | _ :: t => kept t

/-- The four kinds of child commands of `CmdPlaceSchematicNetPoint`. -/
inductive ChildKind where
  | createClass
  | createSignal
  | createPoint
  | merge
deriving DecidableEq, Repr

/-- The kind of a child command. -/
def UndoCommand.kind : UndoCommand NC NS NP → ChildKind
  | .CmdNetClassAdd _ _ => .createClass
  | .CmdNetSignalAdd _ _ _ => .createSignal
  | .CmdSchematicNetPointAdd _ _ _ => .createPoint
  | .CmdCombineAllNetSignalsUnderSchematicNetPoint _ => .merge

/-- Whether the child constructed as `cmd` yields a non-null entity once its
`execute()` has returned and left the command object `cmd1`: the net class, net
signal or net point read by the getter at lines 112, 124, 132. The merge
command yields no entity. -/
def UndoCommand.yields (cmd cmd1 : UndoCommand NC NS NP) : Bool :=
  match cmd with
  | .CmdNetClassAdd _ _ => cmd1.getNetClass.isSome
  | .CmdNetSignalAdd _ _ _ => cmd1.getNetSignal.isSome
  | .CmdSchematicNetPointAdd _ _ _ => cmd1.getNetPoint.isSome
  | .CmdCombineAllNetSignalsUnderSchematicNetPoint _ => true

/-! ## A concrete Circuit and NetGraph -/

/-- Modelled from the spec: §3, "NetClass: identity = unique name (string).
Attributes: name." The class `NetClass` is not part of the sources. -/
structure NetClass where
  name : String
deriving DecidableEq, Repr

/-- Modelled from the spec: §3, "NetSignal: ... Attributes: name, owning
NetClass". The class `NetSignal` is not part of the sources. -/
structure NetSignal where
  name : String
  netClass : NetClass
deriving DecidableEq, Repr

/-- Modelled from the spec: §3, "NetPoint: ... Attributes: 2D position,
associated NetSignal". The class `SI_NetPoint` is not part of the sources. -/
structure SI_NetPoint where
  position : Point
  netSignal : NetSignal
deriving DecidableEq, Repr

/-- Modelled from the spec: the Circuit ("registry of net classes and net
signals") and the net points of the schematic's NetGraph, §2. -/
structure Project where
  netClasses : List NetClass
  netSignals : List NetSignal
  netPoints : List SI_NetPoint
deriving DecidableEq, Repr

/-- Modelled from the spec: the error taxonomy of §7. -/
inductive Exception where
  | NameCollisionError
  | InvalidGeometryError
  | InconsistentModelError
deriving DecidableEq, Repr

/-- Modelled from the spec: what the merge collaborator does at a net point
(§6: "fails only if the underlying model is inconsistent ...; otherwise always
succeeds (a point with nothing to merge is a no-op)"). -/
inductive Merge where
  | nothing
  | merged (s : Project)
  | inconsistent

/-- Modelled from the spec: what the spec leaves to the collaborators.

* `autoName`: the name the auto-naming "create signal" gives, from the signal
  names in use;
* `canHost`: whether a position can host a net point (§7,
  InvalidGeometryError);
* `combine`, `uncombine`: the merge collaborator and its `undo()`. -/
structure Externals where
  autoName : List String → String
  canHost : Point → Bool
  combine : SI_NetPoint → Project → Merge
  uncombine : SI_NetPoint → Project → Project

/-- The names of the net classes of a project. -/
def Project.netClassNames (s : Project) : List String := s.netClasses.map (·.name)

/-- The names of the net signals of a project. -/
def Project.netSignalNames (s : Project) : List String := s.netSignals.map (·.name)

/-- Modelled from the spec: `execute()` of the child commands, after the
contracts of §6.

* "create class": "given a name returns a new owned NetClass or fails if the
  name is already taken";
* "create signal": "given (NetClass, optional requested name) returns a new
  owned NetSignal with a guaranteed-unique name, or fails if an explicit
  requested name collides";
* "create point": "given (position, NetSignal) returns a new owned NetPoint or
  fails with a creation error (e.g. invalid position)";
* the merge collaborator. -/
def stdExecute (X : Externals) (cmd : UndoCommand NetClass NetSignal SI_NetPoint)
    (s : Project) : ChildExit Project Exception NetClass NetSignal SI_NetPoint :=
  match cmd with
  | .CmdNetClassAdd name _ =>
    if name ∈ s.netClassNames then .threw .NameCollisionError s
    else .changed (.CmdNetClassAdd name (some ⟨name⟩))
      { s with netClasses := s.netClasses ++ [⟨name⟩] }
  | .CmdNetSignalAdd netclass (some name) _ =>
    if name ∈ s.netSignalNames then .threw .NameCollisionError s
    else .changed (.CmdNetSignalAdd netclass (some name) (some ⟨name, netclass⟩))
      { s with netSignals := s.netSignals ++ [⟨name, netclass⟩] }
  | .CmdNetSignalAdd netclass none _ =>
    .changed (.CmdNetSignalAdd netclass none (some ⟨X.autoName s.netSignalNames, netclass⟩))
      { s with netSignals := s.netSignals ++ [⟨X.autoName s.netSignalNames, netclass⟩] }
  | .CmdSchematicNetPointAdd netsignal position _ =>
    if X.canHost position then
      .changed (.CmdSchematicNetPointAdd netsignal position (some ⟨position, netsignal⟩))
        { s with netPoints := s.netPoints ++ [⟨position, netsignal⟩] }
    else .threw .InvalidGeometryError s
  | .CmdCombineAllNetSignalsUnderSchematicNetPoint netpoint =>
    match X.combine netpoint s with
    | .nothing => .unchanged (.CmdCombineAllNetSignalsUnderSchematicNetPoint netpoint)
    | .merged s1 => .changed (.CmdCombineAllNetSignalsUnderSchematicNetPoint netpoint) s1
    | .inconsistent => .threw .InconsistentModelError s

/-- Modelled from the spec: `undo()` of the child commands; a creation is
undone by removing the entity it added. -/
def stdUndo (X : Externals) (cmd : UndoCommand NetClass NetSignal SI_NetPoint)
    (s : Project) : Project :=
  match cmd with
  | .CmdNetClassAdd _ _ => { s with netClasses := s.netClasses.dropLast }
  | .CmdNetSignalAdd _ _ _ => { s with netSignals := s.netSignals.dropLast }
  | .CmdSchematicNetPointAdd _ _ _ => { s with netPoints := s.netPoints.dropLast }
  | .CmdCombineAllNetSignalsUnderSchematicNetPoint netpoint => X.uncombine netpoint s

/-- Modelled from the spec: the collaborators over the concrete project
(§4.3: `getNetClassByName`, `getNetSignalByName`: "lookup, no mutation"; §6:
`pointsAt(position)`). -/
def stdCollaborators (X : Externals) :
    Collaborators Project Exception NetClass NetSignal SI_NetPoint where
  getNetPointsAtScenePos s pos := s.netPoints.filter (fun p => p.position = pos)
  getNetSignalByName s name := s.netSignals.find? (fun n => n.name = name)
  getNetClassByName s name := s.netClasses.find? (fun c => c.name = name)
  execute := stdExecute X
  undo := stdUndo X

/-- Creation commands that do not consult the registry: `execute()` adds the
net class or the net signal under the name it is given, taken or not; the
other commands are those of `stdExecute`. With them a name stays unique only
if the caller creates under a name that is not taken. -/
def uncheckedExecute (X : Externals) (cmd : UndoCommand NetClass NetSignal SI_NetPoint)
    (s : Project) : ChildExit Project Exception NetClass NetSignal SI_NetPoint :=
  match cmd with
  | .CmdNetClassAdd name _ =>
    .changed (.CmdNetClassAdd name (some ⟨name⟩))
      { s with netClasses := s.netClasses ++ [⟨name⟩] }
  | .CmdNetSignalAdd netclass (some name) _ =>
    .changed (.CmdNetSignalAdd netclass (some name) (some ⟨name, netclass⟩))
      { s with netSignals := s.netSignals ++ [⟨name, netclass⟩] }
  | other => stdExecute X other s

/-- The collaborators over the concrete project with the creation commands of
`uncheckedExecute`; the lookups and the query are those of
`stdCollaborators`. -/
def uncheckedCollaborators (X : Externals) :
    Collaborators Project Exception NetClass NetSignal SI_NetPoint where
  getNetPointsAtScenePos s pos := s.netPoints.filter (fun p => p.position = pos)
  getNetSignalByName s name := s.netSignals.find? (fun n => n.name = name)
  getNetClassByName s name := s.netClasses.find? (fun c => c.name = name)
  execute := uncheckedExecute X
  undo := stdUndo X

/-- An auto name longer than every name in use. -/
def longerName (names : List String) : String :=
  String.mk (List.replicate ((names.map String.length).foldr max 0 + 1) 'N')

/-- Externals for the examples: positions with a negative `x` cannot host a
net point; there is never anything to merge. -/
def quietExternals : Externals where
  autoName := longerName
  canHost p := decide (0 ≤ p.x)
  combine _ _ := .nothing
  uncombine _ s := s

/-- The empty schematic. -/
def emptyProject : Project := { netClasses := [], netSignals := [], netPoints := [] }

/-- A schematic with one net class, one net signal and one net point at the
origin. -/
def onePointProject : Project :=
  { netClasses := [⟨"default"⟩],
    netSignals := [⟨"N1", ⟨"default"⟩⟩],
    netPoints := [⟨⟨0, 0⟩, ⟨"N1", ⟨"default"⟩⟩⟩] }

/-- A schematic with two net points at the origin, on different signals. -/
def twoPointProject : Project :=
  { netClasses := [⟨"default"⟩],
    netSignals := [⟨"N1", ⟨"default"⟩⟩, ⟨"N2", ⟨"default"⟩⟩],
    netPoints := [⟨⟨0, 0⟩, ⟨"N1", ⟨"default"⟩⟩⟩, ⟨⟨0, 0⟩, ⟨"N2", ⟨"default"⟩⟩⟩] }

/-- A schematic without net points, whose only net signal "S" belongs to the
net class "A"; a second net class "B" exists. -/
def twoClassProject : Project :=
  { netClasses := [⟨"A"⟩, ⟨"B"⟩], netSignals := [⟨"S", ⟨"A"⟩⟩], netPoints := [] }

/-- The command executed once at each position of the list, in order, with
the same names, each run on the project the run before left; the result is the
project after the last run. -/
def placeEach (K : Collaborators σ ε NC NS NP) (netclass netsignal : String) :
    List Point → σ → σ
  | [], s => s
  | pos :: rest, s =>
    placeEach K netclass netsignal rest
      (performExecute K (CmdPlaceSchematicNetPoint.construct s pos netclass netsignal)).2.project

/-! ## Invariants of a run -/

section Preservation

variable (K : Collaborators σ ε NC NS NP)
variable (Q : Exit ε Unit → CmdPlaceSchematicNetPoint σ ε NC NS NP → Prop)

theorem Exit.andThen_spec {S α β : Type} (R : Exit ε Unit → S → Prop) (r : Exit ε α × S)
    (next : α → S → Exit ε β × S) (hr : R r.1.void r.2)
    (hnext : ∀ a s, R (.returned ()) s → R (next a s).1.void (next a s).2) :
    R (Exit.andThen r next).1.void (Exit.andThen r next).2 := by
  rcases r with ⟨a | e | a, s⟩
  · exact hnext a s hr
  · exact hr
  · exact hr

theorem getOrCreateNewNetSignal_spec
    (hexec : ∀ cmd self, cmd.isCreation = true → Q (.returned ()) self →
      Q (execNewChildCmd K cmd self).1.void (execNewChildCmd K cmd self).2)
    (habort : ∀ a self, Q (.returned ()) self → Q (.aborted a) self)
    (self : CmdPlaceSchematicNetPoint σ ε NC NS NP) (h : Q (.returned ()) self) :
    Q (getOrCreateNewNetSignal K self).1.void (getOrCreateNewNetSignal K self).2 := by
  unfold getOrCreateNewNetSignal
  split
  · exact h
  · apply Exit.andThen_spec
    · split
      · exact h
      · exact Exit.andThen_spec Q _ _ (hexec _ _ rfl h) (fun _ _ hs => hs)
    · intro a s hs
      cases a with
      | none => exact habort _ _ hs
      | some nc =>
        exact Exit.andThen_spec Q _ _ (hexec _ _ (by split <;> rfl) hs) (fun _ _ hs => hs)

theorem createNewNetPoint_spec
    (hexec : ∀ cmd self, cmd.isCreation = true → Q (.returned ()) self →
      Q (execNewChildCmd K cmd self).1.void (execNewChildCmd K cmd self).2)
    (netsignal : NS) (self : CmdPlaceSchematicNetPoint σ ε NC NS NP)
    (h : Q (.returned ()) self) :
    Q (createNewNetPoint K netsignal self).1.void (createNewNetPoint K netsignal self).2 :=
  Exit.andThen_spec Q _ _ (hexec _ _ rfl h) (fun _ _ hs => hs)

theorem determineNetPoint_spec
    (hexec : ∀ cmd self, cmd.isCreation = true → Q (.returned ()) self →
      Q (execNewChildCmd K cmd self).1.void (execNewChildCmd K cmd self).2)
    (habort : ∀ a self, Q (.returned ()) self → Q (.aborted a) self)
    (hset : ∀ self p, Q (.returned ()) self → Q (.returned ()) { self with mNetPoint := p })
    (self : CmdPlaceSchematicNetPoint σ ε NC NS NP) (h : Q (.returned ()) self) :
    Q (determineNetPoint K self).1.void (determineNetPoint K self).2 := by
  unfold determineNetPoint
  split
  · apply Exit.andThen_spec Q _ _ (getOrCreateNewNetSignal_spec K Q hexec habort self h)
    intro a s hs
    cases a with
    | none => exact habort _ _ hs
    | some ns =>
      exact Exit.andThen_spec Q _ _ (createNewNetPoint_spec K Q hexec ns s hs)
        (fun _ _ hs => hset _ _ hs)
  · exact hset _ _ h

theorem mergeAndReturn_spec
    (hexec : ∀ cmd self, Q (.returned ()) self →
      Q (execNewChildCmd K cmd self).1.void (execNewChildCmd K cmd self).2)
    (habort : ∀ a self, Q (.returned ()) self → Q (.aborted a) self)
    (self : CmdPlaceSchematicNetPoint σ ε NC NS NP) (h : Q (.returned ()) self) :
    Q (mergeAndReturn K self).1.void (mergeAndReturn K self).2.1 := by
  unfold mergeAndReturn
  cases hp : self.mNetPoint with
  | none => exact habort _ _ h
  | some p =>
    have h2 := hexec (.CmdCombineAllNetSignalsUnderSchematicNetPoint p) self h
    simp only
    rcases hm : execNewChildCmd K (.CmdCombineAllNetSignalsUnderSchematicNetPoint p) self
      with ⟨c | e | a, s2⟩ <;> rw [hm] at h2 <;> exact h2

theorem performExecuteScope_spec
    (hexec : ∀ cmd self, Q (.returned ()) self →
      Q (execNewChildCmd K cmd self).1.void (execNewChildCmd K cmd self).2)
    (habort : ∀ a self, Q (.returned ()) self → Q (.aborted a) self)
    (hset : ∀ self p, Q (.returned ()) self → Q (.returned ()) { self with mNetPoint := p })
    (self : CmdPlaceSchematicNetPoint σ ε NC NS NP) (h : Q (.returned ()) self) :
    Q (performExecuteScope K self).1.void (performExecuteScope K self).2.1 := by
  have h1 := determineNetPoint_spec K Q (fun c s _ => hexec c s) habort hset self h
  unfold performExecuteScope
  rcases hd : determineNetPoint K self with ⟨u | e | a, s⟩
  · rw [hd] at h1
    exact mergeAndReturn_spec K Q hexec habort s h1
  · rw [hd] at h1; exact h1
  · rw [hd] at h1; exact h1

/-- The guard is dismissed exactly when the scope is left by `return`. -/
theorem performExecuteScope_dismissed (self : CmdPlaceSchematicNetPoint σ ε NC NS NP) :
    (performExecuteScope K self).2.2 = true ↔
      ∃ b, (performExecuteScope K self).1 = .returned b := by
  unfold performExecuteScope
  rcases determineNetPoint K self with ⟨u | e | a, s⟩
  · simp only
    unfold mergeAndReturn
    cases s.mNetPoint with
    | none => simp
    | some p =>
      simp only
      rcases execNewChildCmd K (.CmdCombineAllNetSignalsUnderSchematicNetPoint p) s
        with ⟨c | e | a, s2⟩ <;> simp
  · simp
  · simp

theorem foldl_undoChild_project (cs : List (UndoCommand NC NS NP))
    (self : CmdPlaceSchematicNetPoint σ ε NC NS NP) :
    (cs.foldl (undoChild K) self).project = cs.foldl (fun m c => K.undo c m) self.project := by
  induction cs generalizing self with
  | nil => rfl
  | cons c cs ih => simp only [List.foldl_cons]; rw [ih]; rfl

theorem performUndo_project (self : CmdPlaceSchematicNetPoint σ ε NC NS NP) :
    (performUndo K self).project = undoAll K self.mChilds self.project := by
  unfold performUndo undoAll
  rw [foldl_undoChild_project, List.foldl_reverse]

end Preservation

/-! ## The concrete collaborators -/

/-- On the concrete project a failing child leaves the project as it found
it. -/
theorem stdExecute_threw (X : Externals) (cmd : UndoCommand NetClass NetSignal SI_NetPoint)
    (s s1 : Project) (e : Exception) (h : stdExecute X cmd s = .threw e s1) : s1 = s := by
  unfold stdExecute at h
  split at h
  · split at h <;> simp at h; exact h.2.symm
  · split at h <;> simp at h; exact h.2.symm
  · simp at h
  · split at h <;> simp at h; exact h.2.symm
  · split at h <;> simp at h; exact h.2.symm

/-- On the concrete project the `undo()` of a creation child reverts its
`execute()`, and so does the one of the merge child when `uncombine` reverts
`combine`. -/
theorem stdUndo_stdExecute (X : Externals)
    (hX : ∀ p s s1, X.combine p s = .merged s1 → X.uncombine p s1 = s)
    (cmd cmd1 : UndoCommand NetClass NetSignal SI_NetPoint) (s s1 : Project)
    (h : stdExecute X cmd s = .changed cmd1 s1) : stdUndo X cmd1 s1 = s := by
  unfold stdExecute at h
  split at h
  · split at h <;> simp at h
    obtain ⟨rfl, rfl⟩ := h
    simp [stdUndo]
  · split at h <;> simp at h
    obtain ⟨rfl, rfl⟩ := h
    simp [stdUndo]
  · simp at h
    obtain ⟨rfl, rfl⟩ := h
    simp [stdUndo]
  · split at h <;> simp at h
    obtain ⟨rfl, rfl⟩ := h
    simp [stdUndo]
  · split at h <;> simp at h
    next p hm =>
      obtain ⟨rfl, rfl⟩ := h
      simpa [stdUndo] using hX _ _ _ hm

/-! ## Atomicity and error propagation -/

theorem execNewChildCmd_undoAll (K : Collaborators σ ε NC NS NP)
    (hundo : ∀ cmd s cmd1 s1, K.execute cmd s = .changed cmd1 s1 → K.undo cmd1 s1 = s)
    (hfail : ∀ cmd s e s1, K.execute cmd s = .threw e s1 → s1 = s)
    (cmd : UndoCommand NC NS NP) (self : CmdPlaceSchematicNetPoint σ ε NC NS NP) :
    undoAll K (execNewChildCmd K cmd self).2.mChilds (execNewChildCmd K cmd self).2.project
      = undoAll K self.mChilds self.project := by
  unfold execNewChildCmd
  cases h : K.execute cmd self.project with
  | changed c s => simp [undoAll, hundo _ _ _ _ h]
  | unchanged c => rfl
  | threw e s => simp [hfail _ _ _ _ h]

/-- C1 (atomicity). When each child's `undo()` reverts its own `execute()` and
a failing child leaves the Circuit/NetGraph as it found it, a `performExecute`
that ends with an exception (some children executed, then one failed) leaves
the Circuit/NetGraph equal to the state before the call, for every initial
state, position and pair of names. -/
theorem performExecute_atomic (K : Collaborators σ ε NC NS NP) (s0 : σ) (pos : Point)
    (netclass netsignal : String) (e : ε)
    (hundo : ∀ cmd s cmd1 s1, K.execute cmd s = .changed cmd1 s1 → K.undo cmd1 s1 = s)
    (hfail : ∀ cmd s e s1, K.execute cmd s = .threw e s1 → s1 = s)
    (hthrew : (performExecute K
      (CmdPlaceSchematicNetPoint.construct s0 pos netclass netsignal)).1 = .threw e) :
    (performExecute K
      (CmdPlaceSchematicNetPoint.construct s0 pos netclass netsignal)).2.project = s0 := by
  have hinv := performExecuteScope_spec K (fun _ s => undoAll K s.mChilds s.project = s0)
    (fun cmd self h => (execNewChildCmd_undoAll K hundo hfail cmd self).trans h)
    (fun _ _ h => h) (fun _ _ h => h)
    (CmdPlaceSchematicNetPoint.construct s0 pos netclass netsignal) rfl
  have hdis := performExecuteScope_dismissed K
    (CmdPlaceSchematicNetPoint.construct s0 pos netclass netsignal)
  unfold performExecute at hthrew ⊢
  rcases hsc : performExecuteScope K
    (CmdPlaceSchematicNetPoint.construct s0 pos netclass netsignal) with ⟨b | e1 | a, s1, d⟩
  · rw [hsc] at hthrew; simp at hthrew
  · rw [hsc] at hinv hdis
    have hd : d = false := by
      cases d with
      | false => rfl
      | true => simp at hdis
    subst hd
    simp only [scopeGuardExit, Bool.false_eq_true, if_false]
    rw [performUndo_project]
    exact hinv
  · rw [hsc] at hthrew; simp at hthrew

/-- C1, at an instance: on the empty schematic, at a position which cannot host
a net point, the net class and the net signal are created, the creation of the
net point fails, and the project is empty again. -/
theorem performExecute_atomic_witness :
    (performExecute (stdCollaborators quietExternals)
      (CmdPlaceSchematicNetPoint.construct emptyProject ⟨-1, 0⟩ "default" "")).1
        = .threw .InvalidGeometryError ∧
    (performExecute (stdCollaborators quietExternals)
      (CmdPlaceSchematicNetPoint.construct emptyProject ⟨-1, 0⟩ "default" "")).2.project
        = emptyProject :=
  ⟨by decide,
   performExecute_atomic (stdCollaborators quietExternals) emptyProject ⟨-1, 0⟩ "default" ""
    .InvalidGeometryError
    (fun cmd s cmd1 s1 h => stdUndo_stdExecute quietExternals
      (fun _ _ _ hm => by simp [quietExternals] at hm) cmd cmd1 s s1 h)
    (fun cmd s e s1 h => stdExecute_threw quietExternals cmd s s1 e h)
    (by decide)⟩

theorem failures_append (t u : List (Event ε NC NS NP)) :
    failures (t ++ u) = failures t ++ failures u := by
  induction t with
  | nil => rfl
  | cons ev t ih => cases ev <;> simp [failures, ih]

theorem mem_failures (t : List (Event ε NC NS NP)) (cmd : UndoCommand NC NS NP) (e : ε)
    (h : Event.failed cmd e ∈ t) : e ∈ failures t := by
  induction t with
  | nil => simp at h
  | cons ev t ih =>
    rcases List.mem_cons.1 h with rfl | h1
    · simp [failures]
    · have := ih h1
      cases ev <;> simp [failures, this]

theorem failures_map_undone (cs : List (UndoCommand NC NS NP)) :
    failures (cs.map (Event.undone : UndoCommand NC NS NP → Event ε NC NS NP)) = [] := by
  induction cs with
  | nil => rfl
  | cons c cs ih => simpa [failures] using ih

theorem foldl_undoChild_trace (K : Collaborators σ ε NC NS NP) (cs : List (UndoCommand NC NS NP))
    (self : CmdPlaceSchematicNetPoint σ ε NC NS NP) :
    (cs.foldl (undoChild K) self).trace = self.trace ++ cs.map .undone := by
  induction cs generalizing self with
  | nil => simp
  | cons c cs ih => simp only [List.foldl_cons]; rw [ih]; simp [undoChild]

/-- The rollback calls `undo()` on the children held by the group, the last
one first. -/
theorem performUndo_trace (K : Collaborators σ ε NC NS NP)
    (self : CmdPlaceSchematicNetPoint σ ε NC NS NP) :
    (performUndo K self).trace = self.trace ++ self.mChilds.reverse.map .undone := by
  unfold performUndo
  rw [foldl_undoChild_trace]

theorem scopeGuardExit_failures (K : Collaborators σ ε NC NS NP) (dismissed : Bool)
    (self : CmdPlaceSchematicNetPoint σ ε NC NS NP) :
    failures (scopeGuardExit K dismissed self).trace = failures self.trace := by
  unfold scopeGuardExit
  cases dismissed with
  | true => rfl
  | false =>
    simp only [Bool.false_eq_true, if_false]
    rw [performUndo_trace, failures_append, failures_map_undone]
    simp [failures_append, failures]

/-- The exceptions thrown by children during the scope of `performExecute`:
none when the scope returns or aborts, exactly the one propagated when it
throws. -/
theorem performExecuteScope_failures (K : Collaborators σ ε NC NS NP)
    (self : CmdPlaceSchematicNetPoint σ ε NC NS NP) (h : failures self.trace = []) :
    failures (performExecuteScope K self).2.1.trace =
      match (performExecuteScope K self).1 with
      | .threw e => [e]
      | _ => [] := by
  have := performExecuteScope_spec K
    (fun r s => failures s.trace = match r with | .threw e => [e] | _ => [])
    (fun cmd s hs => by
      simp only at hs
      unfold execNewChildCmd
      cases K.execute cmd s.project <;> simp [failures_append, failures, Exit.void, hs])
    (fun _ _ hs => hs) (fun _ _ hs => hs) self h
  simp only at this
  rw [this]
  cases (performExecuteScope K self).1 <;> rfl

/-- C2 (error propagation). When the `execute()` of a child command fails with
the error `e` during a run of `performExecute`, `performExecute` throws exactly
`e`: it returns no boolean and throws no other error. -/
theorem performExecute_propagates (K : Collaborators σ ε NC NS NP) (s0 : σ) (pos : Point)
    (netclass netsignal : String) (cmd : UndoCommand NC NS NP) (e : ε)
    (hfailed : Event.failed cmd e ∈ (performExecute K
      (CmdPlaceSchematicNetPoint.construct s0 pos netclass netsignal)).2.trace) :
    (performExecute K
      (CmdPlaceSchematicNetPoint.construct s0 pos netclass netsignal)).1 = .threw e := by
  have hf := performExecuteScope_failures K
    (CmdPlaceSchematicNetPoint.construct s0 pos netclass netsignal) rfl
  have hmem := mem_failures _ _ _ hfailed
  unfold performExecute at hmem ⊢
  rcases hsc : performExecuteScope K
    (CmdPlaceSchematicNetPoint.construct s0 pos netclass netsignal) with ⟨b | e1 | a, s1, d⟩
  all_goals rw [hsc] at hf hmem
  all_goals simp only [scopeGuardExit_failures] at hmem
  all_goals rw [hf] at hmem
  all_goals simp at hmem
  · simp [hmem]

/-- C2, at an instance: on the empty schematic, at a position which cannot host
a net point, the net-point-creation child fails with `InvalidGeometryError`
and that is what `performExecute` throws. -/
theorem performExecute_propagates_witness :
    Event.failed
        (.CmdSchematicNetPointAdd ⟨"N", ⟨"default"⟩⟩ ⟨-1, 0⟩ none) .InvalidGeometryError ∈
      (performExecute (stdCollaborators quietExternals)
        (CmdPlaceSchematicNetPoint.construct emptyProject ⟨-1, 0⟩ "default" "")).2.trace ∧
    (performExecute (stdCollaborators quietExternals)
      (CmdPlaceSchematicNetPoint.construct emptyProject ⟨-1, 0⟩ "default" "")).1
        = .threw .InvalidGeometryError :=
  ⟨by decide,
   performExecute_propagates (stdCollaborators quietExternals) emptyProject ⟨-1, 0⟩
    "default" "" (.CmdSchematicNetPointAdd ⟨"N", ⟨"default"⟩⟩ ⟨-1, 0⟩ none)
    .InvalidGeometryError (by decide)⟩

/-! ## Reuse of an existing net point -/

/-- C5 (no-op reporting). When a net point already exists at the target
position and the merge child has nothing to union (its `execute()` reports no
change), `performExecute` succeeds and returns `false`; the group holds zero
children and the Circuit/NetGraph is as before. -/
theorem performExecute_noop (K : Collaborators σ ε NC NS NP) (s0 : σ) (pos : Point)
    (netclass netsignal : String) (p : NP) (ps : List NP) (cmd1 : UndoCommand NC NS NP)
    (hpts : K.getNetPointsAtScenePos s0 pos = p :: ps)
    (hmerge : K.execute (.CmdCombineAllNetSignalsUnderSchematicNetPoint p) s0
      = .unchanged cmd1) :
    (performExecute K
      (CmdPlaceSchematicNetPoint.construct s0 pos netclass netsignal)).1 = .returned false ∧
    getChildCount (performExecute K
      (CmdPlaceSchematicNetPoint.construct s0 pos netclass netsignal)).2 = 0 ∧
    (performExecute K
      (CmdPlaceSchematicNetPoint.construct s0 pos netclass netsignal)).2.project = s0 := by
  simp [performExecute, performExecuteScope, determineNetPoint, mergeAndReturn,
    execNewChildCmd, CmdPlaceSchematicNetPoint.construct, hpts, hmerge, scopeGuardExit,
    getChildCount]

/-- C5, at an instance: placing at the origin of `onePointProject`, where the
merge has nothing to union, returns `false`. -/
theorem performExecute_noop_witness :
    (performExecute (stdCollaborators quietExternals)
      (CmdPlaceSchematicNetPoint.construct onePointProject ⟨0, 0⟩ "default" "N1")).1
        = .returned false ∧
    getChildCount (performExecute (stdCollaborators quietExternals)
      (CmdPlaceSchematicNetPoint.construct onePointProject ⟨0, 0⟩ "default" "N1")).2 = 0 ∧
    (performExecute (stdCollaborators quietExternals)
      (CmdPlaceSchematicNetPoint.construct onePointProject ⟨0, 0⟩ "default" "N1")).2.project
        = onePointProject :=
  performExecute_noop (stdCollaborators quietExternals) onePointProject ⟨0, 0⟩ "default" "N1"
    ⟨⟨0, 0⟩, ⟨"N1", ⟨"default"⟩⟩⟩ []
    (.CmdCombineAllNetSignalsUnderSchematicNetPoint ⟨⟨0, 0⟩, ⟨"N1", ⟨"default"⟩⟩⟩)
    (by decide) (by rfl)

/-- A successful `performExecute` went through the statements before the
merge, the assertion, and the merge child; nothing is rolled back. -/
theorem performExecute_returned (K : Collaborators σ ε NC NS NP)
    (self : CmdPlaceSchematicNetPoint σ ε NC NS NP) (b : Bool)
    (hok : (performExecute K self).1 = .returned b) :
    ∃ s1 p cmd1 s2, determineNetPoint K self = (.returned (), s1) ∧
      s1.mNetPoint = some p ∧
      execNewChildCmd K (.CmdCombineAllNetSignalsUnderSchematicNetPoint p) s1
        = (.returned cmd1, s2) ∧
      performExecute K self = (.returned (decide (getChildCount s2 > 0)), s2) := by
  unfold performExecute performExecuteScope at hok ⊢
  rcases hd : determineNetPoint K self with ⟨u | e | a, s⟩
  · rw [hd] at hok
    simp only at hok ⊢
    unfold mergeAndReturn at hok ⊢
    cases hp : s.mNetPoint with
    | none => rw [hp] at hok; simp at hok
    | some p =>
      rw [hp] at hok
      simp only at hok ⊢
      rcases hm : execNewChildCmd K (.CmdCombineAllNetSignalsUnderSchematicNetPoint p) s
        with ⟨c | e | a, s2⟩
      · exact ⟨s, p, c, s2, rfl, hp, hm, by simp [scopeGuardExit]⟩
      · rw [hm] at hok; simp at hok
      · rw [hm] at hok; simp at hok
  · rw [hd] at hok; simp at hok
  · rw [hd] at hok; simp at hok

/-- C6 (return value). When `performExecute` succeeds, the boolean it returns
is `true` if and only if the group holds at least one child command at the end
of the run. -/
theorem performExecute_returns_childCount (K : Collaborators σ ε NC NS NP)
    (self : CmdPlaceSchematicNetPoint σ ε NC NS NP) (b : Bool)
    (hok : (performExecute K self).1 = .returned b) :
    (b = true ↔ 0 < getChildCount (performExecute K self).2) := by
  obtain ⟨s1, p, cmd1, s2, -, -, -, hrun⟩ := performExecute_returned K self b hok
  rw [hrun] at hok ⊢
  simp only [Exit.returned.injEq] at hok
  simp [← hok]

/-- C6, at an instance: the first placement on the empty schematic returns
`true` and the group holds children. -/
theorem performExecute_returns_childCount_witness :
    (true = true ↔ 0 < getChildCount (performExecute (stdCollaborators quietExternals)
      (CmdPlaceSchematicNetPoint.construct emptyProject ⟨1, 0⟩ "default" "")).2) :=
  performExecute_returns_childCount (stdCollaborators quietExternals)
    (CmdPlaceSchematicNetPoint.construct emptyProject ⟨1, 0⟩ "default" "") true (by decide)

/-- C7 (reuse of an existing net point). When the query at the target position
returns a non-empty sequence `p :: ps`, the statements before the merge leave
the command with `mNetPoint = p` and with the Circuit/NetGraph, the children
and the trace untouched; at the end of `performExecute` the net point is `p`
and the only child command whose `execute()` was called is the merge command
on `p`: no net class, net signal or net point is created. -/
theorem performExecute_reuses_first (K : Collaborators σ ε NC NS NP) (s0 : σ) (pos : Point)
    (netclass netsignal : String) (p : NP) (ps : List NP)
    (hpts : K.getNetPointsAtScenePos s0 pos = p :: ps) :
    determineNetPoint K (CmdPlaceSchematicNetPoint.construct s0 pos netclass netsignal)
      = (.returned (),
          { (CmdPlaceSchematicNetPoint.construct s0 pos netclass netsignal :
              CmdPlaceSchematicNetPoint σ ε NC NS NP) with mNetPoint := some p }) ∧
    (performExecute K
      (CmdPlaceSchematicNetPoint.construct s0 pos netclass netsignal)).2.mNetPoint = some p ∧
    submitted (performExecute K
      (CmdPlaceSchematicNetPoint.construct s0 pos netclass netsignal)).2.trace
        = [.CmdCombineAllNetSignalsUnderSchematicNetPoint p] := by
  refine ⟨by simp [determineNetPoint, CmdPlaceSchematicNetPoint.construct, hpts], ?_, ?_⟩
  all_goals
    cases hm : K.execute (.CmdCombineAllNetSignalsUnderSchematicNetPoint p) s0 <;>
    simp [performExecute, performExecuteScope, determineNetPoint, mergeAndReturn,
      execNewChildCmd, CmdPlaceSchematicNetPoint.construct, hpts, hm, scopeGuardExit,
      performUndo, undoChild, submitted]

/-- C7, at an instance: with two net points at the origin the first one is
taken and only the merge command is executed. -/
theorem performExecute_reuses_first_witness :
    (performExecute (stdCollaborators quietExternals)
      (CmdPlaceSchematicNetPoint.construct twoPointProject ⟨0, 0⟩ "other" "N3")).2.mNetPoint
        = some ⟨⟨0, 0⟩, ⟨"N1", ⟨"default"⟩⟩⟩ ∧
    submitted (performExecute (stdCollaborators quietExternals)
      (CmdPlaceSchematicNetPoint.construct twoPointProject ⟨0, 0⟩ "other" "N3")).2.trace
        = [.CmdCombineAllNetSignalsUnderSchematicNetPoint ⟨⟨0, 0⟩, ⟨"N1", ⟨"default"⟩⟩⟩] :=
  (performExecute_reuses_first (stdCollaborators quietExternals) twoPointProject ⟨0, 0⟩
    "other" "N3" ⟨⟨0, 0⟩, ⟨"N1", ⟨"default"⟩⟩⟩ [⟨⟨0, 0⟩, ⟨"N2", ⟨"default"⟩⟩⟩]
    (by decide)).2

/-! ## The requested names on an occupied position and on an existing signal -/

/-- C3, as stated, fails: on `onePointProject` a net point exists at the origin
and no net signal is named "N2"; placing at the origin with netsignal "N2"
executes the merge child only, no net signal "N2" exists afterwards, and
`performExecute` returns `false`. -/
theorem occupied_position_counterexample :
    (stdCollaborators quietExternals).getNetPointsAtScenePos onePointProject ⟨0, 0⟩
      = [⟨⟨0, 0⟩, ⟨"N1", ⟨"default"⟩⟩⟩] ∧
    (stdCollaborators quietExternals).getNetSignalByName onePointProject "N2" = none ∧
    submitted (performExecute (stdCollaborators quietExternals)
      (CmdPlaceSchematicNetPoint.construct onePointProject ⟨0, 0⟩ "default" "N2")).2.trace
        = [.CmdCombineAllNetSignalsUnderSchematicNetPoint ⟨⟨0, 0⟩, ⟨"N1", ⟨"default"⟩⟩⟩] ∧
    (stdCollaborators quietExternals).getNetSignalByName
      (performExecute (stdCollaborators quietExternals)
        (CmdPlaceSchematicNetPoint.construct onePointProject ⟨0, 0⟩ "default" "N2")).2.project
      "N2" = none ∧
    (performExecute (stdCollaborators quietExternals)
      (CmdPlaceSchematicNetPoint.construct onePointProject ⟨0, 0⟩ "default" "N2")).1
        = .returned false := by
  decide

/-- C3, amended. When a net point already exists at the position and no net
signal named "N2" exists, placing there with netsignal "N2" reuses the first
existing net point and executes no creation child: "N2" is still absent when
the merge child is executed, the merge on that point is the only child
executed, and `performExecute` returns `true` if and only if the merge child
reports a change. -/
theorem place_on_occupied (K : Collaborators σ ε NC NS NP) (s0 : σ) (pos : Point)
    (netclass : String) (p : NP) (ps : List NP)
    (hpts : K.getNetPointsAtScenePos s0 pos = p :: ps)
    (hsig : K.getNetSignalByName s0 "N2" = none) :
    (performExecute K
      (CmdPlaceSchematicNetPoint.construct s0 pos netclass "N2")).2.mNetPoint = some p ∧
    K.getNetSignalByName
      (determineNetPoint K
        (CmdPlaceSchematicNetPoint.construct s0 pos netclass "N2")).2.project "N2" = none ∧
    (∀ c ∈ submitted (performExecute K
      (CmdPlaceSchematicNetPoint.construct s0 pos netclass "N2")).2.trace,
        c = .CmdCombineAllNetSignalsUnderSchematicNetPoint p) ∧
    (∀ b, (performExecute K
      (CmdPlaceSchematicNetPoint.construct s0 pos netclass "N2")).1 = .returned b →
        (b = true ↔ ∃ c s1,
          K.execute (.CmdCombineAllNetSignalsUnderSchematicNetPoint p) s0 = .changed c s1)) := by
  refine ⟨?_, ?_, ?_, ?_⟩
  · cases hm : K.execute (.CmdCombineAllNetSignalsUnderSchematicNetPoint p) s0 <;>
    simp [performExecute, performExecuteScope, determineNetPoint, mergeAndReturn,
      execNewChildCmd, CmdPlaceSchematicNetPoint.construct, hpts, hm, scopeGuardExit,
      performUndo, undoChild]
  · simpa [determineNetPoint, CmdPlaceSchematicNetPoint.construct, hpts] using hsig
  · cases hm : K.execute (.CmdCombineAllNetSignalsUnderSchematicNetPoint p) s0 <;>
    simp [performExecute, performExecuteScope, determineNetPoint, mergeAndReturn,
      execNewChildCmd, CmdPlaceSchematicNetPoint.construct, hpts, hm, scopeGuardExit,
      performUndo, undoChild, submitted]
  · intro b
    cases hm : K.execute (.CmdCombineAllNetSignalsUnderSchematicNetPoint p) s0 <;>
    simp [performExecute, performExecuteScope, determineNetPoint, mergeAndReturn,
      execNewChildCmd, CmdPlaceSchematicNetPoint.construct, hpts, hm, scopeGuardExit,
      getChildCount]

/-- C3 amended, at an instance: `onePointProject`, placing at the origin. -/
theorem place_on_occupied_witness :
    (performExecute (stdCollaborators quietExternals)
      (CmdPlaceSchematicNetPoint.construct onePointProject ⟨0, 0⟩ "default" "N2")).2.mNetPoint
        = some ⟨⟨0, 0⟩, ⟨"N1", ⟨"default"⟩⟩⟩ ∧
    (stdCollaborators quietExternals).getNetSignalByName
      (determineNetPoint (stdCollaborators quietExternals)
        (CmdPlaceSchematicNetPoint.construct onePointProject ⟨0, 0⟩ "default" "N2")).2.project
      "N2" = none :=
  have h := place_on_occupied (stdCollaborators quietExternals) onePointProject ⟨0, 0⟩
    "default" ⟨⟨0, 0⟩, ⟨"N1", ⟨"default"⟩⟩⟩ [] (by decide) (by decide)
  ⟨h.1, h.2.1⟩

/-- C4, as stated, fails: on `twoClassProject` no net point exists at (1, 0)
and the net signal "S" belongs to the net class "A"; placing there with
netclass "B" and netsignal "S" throws nothing: it returns `true`, and the
NetGraph has the new net point, bound to "S" of class "A". -/
theorem class_mismatch_counterexample :
    (stdCollaborators quietExternals).getNetPointsAtScenePos twoClassProject ⟨1, 0⟩ = [] ∧
    (stdCollaborators quietExternals).getNetSignalByName twoClassProject "S"
      = some ⟨"S", ⟨"A"⟩⟩ ∧
    (performExecute (stdCollaborators quietExternals)
      (CmdPlaceSchematicNetPoint.construct twoClassProject ⟨1, 0⟩ "B" "S")).1
        = .returned true ∧
    (performExecute (stdCollaborators quietExternals)
      (CmdPlaceSchematicNetPoint.construct twoClassProject ⟨1, 0⟩ "B" "S")).2.project
        = { twoClassProject with netPoints := [⟨⟨1, 0⟩, ⟨"S", ⟨"A"⟩⟩⟩] } := by
  decide

/-- C4, amended. When no net point exists at the target position and a net
signal with the requested name exists, in whatever net class, the signal is
reused whatever net class name is requested: `getOrCreateNewNetSignal` returns
it without executing a child, and the children executed by `performExecute`
are the creation of the net point bound to that signal at the target position
and then, when that succeeded, the merge: no net class or net signal creation
is attempted, so no name can collide. -/
theorem existing_signal_reused (K : Collaborators σ ε NC NS NP) (s0 : σ) (pos : Point)
    (netclass netsignal : String) (ns : NS)
    (hpts : K.getNetPointsAtScenePos s0 pos = [])
    (hsig : K.getNetSignalByName s0 netsignal = some ns) :
    getOrCreateNewNetSignal K (CmdPlaceSchematicNetPoint.construct s0 pos netclass netsignal)
      = (.returned (some ns), CmdPlaceSchematicNetPoint.construct s0 pos netclass netsignal) ∧
    (submitted (performExecute K
      (CmdPlaceSchematicNetPoint.construct s0 pos netclass netsignal)).2.trace).head?
        = some (.CmdSchematicNetPointAdd ns pos none) ∧
    (∀ c ∈ (submitted (performExecute K
      (CmdPlaceSchematicNetPoint.construct s0 pos netclass netsignal)).2.trace).tail,
        ∃ p, c = .CmdCombineAllNetSignalsUnderSchematicNetPoint p) := by
  have hg : getOrCreateNewNetSignal K
      (CmdPlaceSchematicNetPoint.construct s0 pos netclass netsignal)
      = (.returned (some ns), CmdPlaceSchematicNetPoint.construct s0 pos netclass netsignal) := by
    simp [getOrCreateNewNetSignal, CmdPlaceSchematicNetPoint.construct, hsig]
  refine ⟨hg, ?_⟩
  have hd : determineNetPoint K (CmdPlaceSchematicNetPoint.construct s0 pos netclass netsignal)
      = Exit.andThen (createNewNetPoint K ns
          (CmdPlaceSchematicNetPoint.construct s0 pos netclass netsignal))
          (fun netpoint self2 => (.returned (), { self2 with mNetPoint := netpoint })) := by
    unfold determineNetPoint
    rw [hg]
    simp [CmdPlaceSchematicNetPoint.construct, hpts, Exit.andThen]
  unfold performExecute performExecuteScope
  rw [hd]
  unfold createNewNetPoint execNewChildCmd
  cases ha : K.execute (.CmdSchematicNetPointAdd ns pos none) s0 with
  | threw e s =>
    simp [CmdPlaceSchematicNetPoint.construct, ha, Exit.andThen, scopeGuardExit, performUndo,
      submitted]
  | changed c s =>
    cases hp : c.getNetPoint with
    | none =>
      simp [CmdPlaceSchematicNetPoint.construct, ha, Exit.andThen, mergeAndReturn, hp,
        submitted]
    | some q =>
      cases hm : K.execute (.CmdCombineAllNetSignalsUnderSchematicNetPoint q) s <;>
      simp [CmdPlaceSchematicNetPoint.construct, ha, Exit.andThen, mergeAndReturn, hp,
        execNewChildCmd, hm, scopeGuardExit, performUndo, undoChild, submitted]
  | unchanged c =>
    cases hp : c.getNetPoint with
    | none =>
      simp [CmdPlaceSchematicNetPoint.construct, ha, Exit.andThen, mergeAndReturn, hp,
        submitted]
    | some q =>
      cases hm : K.execute (.CmdCombineAllNetSignalsUnderSchematicNetPoint q) s0 <;>
      simp [CmdPlaceSchematicNetPoint.construct, ha, Exit.andThen, mergeAndReturn, hp,
        execNewChildCmd, hm, scopeGuardExit, performUndo, undoChild, submitted]

/-- C4 amended, at an instance: `twoClassProject`, netclass "B", netsignal
"S". -/
theorem existing_signal_reused_witness :
    (submitted (performExecute (stdCollaborators quietExternals)
      (CmdPlaceSchematicNetPoint.construct twoClassProject ⟨1, 0⟩ "B" "S")).2.trace).head?
        = some (.CmdSchematicNetPointAdd ⟨"S", ⟨"A"⟩⟩ ⟨1, 0⟩ none) :=
  (existing_signal_reused (stdCollaborators quietExternals) twoClassProject ⟨1, 0⟩ "B" "S"
    ⟨"S", ⟨"A"⟩⟩ (by decide) (by decide)).2.1

/-! ## Resolve or create -/

/-- C8 (lazy resolve-or-create). In `getOrCreateNewNetSignal`: (1) when a net
signal with the requested name exists it is returned and nothing else happens
(no child is executed, the command and the Circuit are untouched); (2) when
none exists and the function returns, a net-signal-creation child under the
resolved net class `nc` is the last child executed and its created signal is
what is returned; it is the only child executed when a net class with the
requested name exists (`nc` is that class), and it is preceded by exactly one
net-class-creation child for the requested class name when none exists (`nc`
is the class that child created). -/
theorem getOrCreateNewNetSignal_lazy (K : Collaborators σ ε NC NS NP)
    (self : CmdPlaceSchematicNetPoint σ ε NC NS NP) :
    (∀ ns, K.getNetSignalByName self.project self.mNetSignalName = some ns →
      getOrCreateNewNetSignal K self = (.returned (some ns), self)) ∧
    (K.getNetSignalByName self.project self.mNetSignalName = none →
      ∀ r self1, getOrCreateNewNetSignal K self = (.returned r, self1) →
        ∃ nc name cmd1 changed,
          r = cmd1.getNetSignal ∧
          ((K.getNetClassByName self.project self.mNetClassName = some nc ∧
              self1.trace = self.trace ++
                [.executed (.CmdNetSignalAdd nc name none) cmd1 changed]) ∨
           (K.getNetClassByName self.project self.mNetClassName = none ∧
              ∃ cmd0 changed0, cmd0.getNetClass = some nc ∧
                self1.trace = self.trace ++
                  [.executed (.CmdNetClassAdd self.mNetClassName none) cmd0 changed0,
                   .executed (.CmdNetSignalAdd nc name none) cmd1 changed]))) := by
  constructor
  · intro ns hsig
    simp [getOrCreateNewNetSignal, hsig]
  · intro hsig r self1 hrun
    have hcmd : ∀ (nc : NC) (n : String), ∃ name,
        (if n.isEmpty then UndoCommand.CmdNetSignalAdd nc none none
          else UndoCommand.CmdNetSignalAdd nc (some n) none : UndoCommand NC NS NP)
          = .CmdNetSignalAdd nc name none := by
      intro nc n
      split <;> exact ⟨_, rfl⟩
    unfold getOrCreateNewNetSignal at hrun
    rw [hsig] at hrun
    simp only at hrun
    cases hcls : K.getNetClassByName self.project self.mNetClassName with
    | some nc =>
      rw [hcls] at hrun
      obtain ⟨name, hname⟩ := hcmd nc self.mNetSignalName
      simp only [Exit.andThen, hname, execNewChildCmd] at hrun
      cases hx : K.execute (.CmdNetSignalAdd nc name none) self.project with
      | changed c s =>
        rw [hx] at hrun
        simp only [Prod.mk.injEq, Exit.returned.injEq] at hrun
        obtain ⟨rfl, rfl⟩ := hrun
        exact ⟨nc, name, c, true, rfl, Or.inl ⟨rfl, rfl⟩⟩
      | unchanged c =>
        rw [hx] at hrun
        simp only [Prod.mk.injEq, Exit.returned.injEq] at hrun
        obtain ⟨rfl, rfl⟩ := hrun
        exact ⟨nc, name, c, false, rfl, Or.inl ⟨rfl, rfl⟩⟩
      | threw e s => rw [hx] at hrun; simp at hrun
    | none =>
      rw [hcls] at hrun
      simp only [Exit.andThen, execNewChildCmd] at hrun
      cases hx0 : K.execute (.CmdNetClassAdd self.mNetClassName none) self.project with
      | threw e s => rw [hx0] at hrun; simp at hrun
      | changed c0 s =>
        rw [hx0] at hrun
        simp only at hrun
        cases hnc : c0.getNetClass with
        | none => rw [hnc] at hrun; simp at hrun
        | some nc =>
          rw [hnc] at hrun
          obtain ⟨name, hname⟩ := hcmd nc self.mNetSignalName
          simp only [hname] at hrun
          cases hx : K.execute (.CmdNetSignalAdd nc name none) s with
          | changed c s2 =>
            rw [hx] at hrun
            simp only [Prod.mk.injEq, Exit.returned.injEq] at hrun
            obtain ⟨rfl, rfl⟩ := hrun
            exact ⟨nc, name, c, true, rfl, Or.inr ⟨rfl, c0, true, hnc, by simp⟩⟩
          | unchanged c =>
            rw [hx] at hrun
            simp only [Prod.mk.injEq, Exit.returned.injEq] at hrun
            obtain ⟨rfl, rfl⟩ := hrun
            exact ⟨nc, name, c, false, rfl, Or.inr ⟨rfl, c0, true, hnc, by simp⟩⟩
          | threw e s2 => rw [hx] at hrun; simp at hrun
      | unchanged c0 =>
        rw [hx0] at hrun
        simp only at hrun
        cases hnc : c0.getNetClass with
        | none => rw [hnc] at hrun; simp at hrun
        | some nc =>
          rw [hnc] at hrun
          obtain ⟨name, hname⟩ := hcmd nc self.mNetSignalName
          simp only [hname] at hrun
          cases hx : K.execute (.CmdNetSignalAdd nc name none) self.project with
          | changed c s2 =>
            rw [hx] at hrun
            simp only [Prod.mk.injEq, Exit.returned.injEq] at hrun
            obtain ⟨rfl, rfl⟩ := hrun
            exact ⟨nc, name, c, true, rfl, Or.inr ⟨rfl, c0, false, hnc, by simp⟩⟩
          | unchanged c =>
            rw [hx] at hrun
            simp only [Prod.mk.injEq, Exit.returned.injEq] at hrun
            obtain ⟨rfl, rfl⟩ := hrun
            exact ⟨nc, name, c, false, rfl, Or.inr ⟨rfl, c0, false, hnc, by simp⟩⟩
          | threw e s2 => rw [hx] at hrun; simp at hrun

/-- C8, at an instance: on the empty schematic, with netclass "default" and an
empty signal name, the signal returned is the one created by the
net-signal-creation child, which follows the creation of the class. -/
theorem getOrCreateNewNetSignal_lazy_witness :
    ∃ nc name cmd1 changed,
      some (⟨"N", ⟨"default"⟩⟩ : NetSignal) = cmd1.getNetSignal ∧
      (((stdCollaborators quietExternals).getNetClassByName emptyProject "default" = some nc ∧
          (getOrCreateNewNetSignal (stdCollaborators quietExternals)
            (CmdPlaceSchematicNetPoint.construct emptyProject ⟨1, 0⟩ "default" "")).2.trace
            = [] ++ [.executed (.CmdNetSignalAdd nc name none) cmd1 changed]) ∨
       ((stdCollaborators quietExternals).getNetClassByName emptyProject "default" = none ∧
          ∃ cmd0 changed0, cmd0.getNetClass = some nc ∧
            (getOrCreateNewNetSignal (stdCollaborators quietExternals)
              (CmdPlaceSchematicNetPoint.construct emptyProject ⟨1, 0⟩ "default" "")).2.trace
              = [] ++ [.executed (.CmdNetClassAdd "default" none) cmd0 changed0,
                 .executed (.CmdNetSignalAdd nc name none) cmd1 changed])) :=
  (getOrCreateNewNetSignal_lazy (stdCollaborators quietExternals)
    (CmdPlaceSchematicNetPoint.construct emptyProject ⟨1, 0⟩ "default" "")).2 (by decide)
    (some ⟨"N", ⟨"default"⟩⟩)
    (getOrCreateNewNetSignal (stdCollaborators quietExternals)
      (CmdPlaceSchematicNetPoint.construct emptyProject ⟨1, 0⟩ "default" "")).2
    (by rfl)

/-! ## The merge child -/

theorem execNewChildCmd_members (K : Collaborators σ ε NC NS NP) (cmd : UndoCommand NC NS NP)
    (self : CmdPlaceSchematicNetPoint σ ε NC NS NP) :
    (execNewChildCmd K cmd self).2.mPosition = self.mPosition ∧
    (execNewChildCmd K cmd self).2.mNetClassName = self.mNetClassName ∧
    (execNewChildCmd K cmd self).2.mNetSignalName = self.mNetSignalName ∧
    (execNewChildCmd K cmd self).2.mNetPoint = self.mNetPoint := by
  unfold execNewChildCmd
  cases K.execute cmd self.project <;> simp

/-- The position of the command does not change in `getOrCreateNewNetSignal`. -/
theorem getOrCreateNewNetSignal_mPosition (K : Collaborators σ ε NC NS NP)
    (self : CmdPlaceSchematicNetPoint σ ε NC NS NP) :
    (getOrCreateNewNetSignal K self).2.mPosition = self.mPosition :=
  getOrCreateNewNetSignal_spec K (fun _ s => s.mPosition = self.mPosition)
    (fun cmd s _ hs => (execNewChildCmd_members K cmd s).1.trans hs)
    (fun _ _ hs => hs) self rfl

/-- When the statements before the merge return, `mNetPoint` is the first net
point found at the position, or, when none was found, the net point of the
net-point-creation child, which was the last child executed. -/
theorem determineNetPoint_returned (K : Collaborators σ ε NC NS NP)
    (self s1 : CmdPlaceSchematicNetPoint σ ε NC NS NP)
    (h : determineNetPoint K self = (.returned (), s1)) :
    ((K.getNetPointsAtScenePos self.project self.mPosition).head? = s1.mNetPoint ∧
      K.getNetPointsAtScenePos self.project self.mPosition ≠ [] ∧ s1.trace = self.trace) ∨
    (K.getNetPointsAtScenePos self.project self.mPosition = [] ∧
      ∃ pre netsignal cmd1 changed,
        s1.trace = pre ++
          [.executed (.CmdSchematicNetPointAdd netsignal self.mPosition none) cmd1 changed] ∧
        s1.mNetPoint = cmd1.getNetPoint) := by
  unfold determineNetPoint at h
  cases hpts : K.getNetPointsAtScenePos self.project self.mPosition with
  | cons p ps =>
    rw [hpts] at h
    simp only [Prod.mk.injEq, true_and] at h
    subst h
    exact Or.inl ⟨rfl, by simp, rfl⟩
  | nil =>
    rw [hpts] at h
    refine Or.inr ⟨rfl, ?_⟩
    have hpos := getOrCreateNewNetSignal_mPosition K self
    rcases hg : getOrCreateNewNetSignal K self with ⟨r | e | a, s⟩
    · rw [hg] at h hpos
      cases r with
      | none => simp [Exit.andThen] at h
      | some nsig =>
        simp only [Exit.andThen, createNewNetPoint, execNewChildCmd] at h hpos
        rw [hpos] at h
        cases hx : K.execute (.CmdSchematicNetPointAdd nsig self.mPosition none) s.project with
        | changed c s2 =>
          rw [hx] at h
          simp only [Prod.mk.injEq, true_and] at h
          subst h
          exact ⟨s.trace, nsig, c, true, rfl, rfl⟩
        | unchanged c =>
          rw [hx] at h
          simp only [Prod.mk.injEq, true_and] at h
          subst h
          exact ⟨s.trace, nsig, c, false, rfl, rfl⟩
        | threw e s2 => rw [hx] at h; simp at h
    · rw [hg] at h; simp [Exit.andThen] at h
    · rw [hg] at h; simp [Exit.andThen] at h

/-- C9 (the merge is the final child). When `performExecute` succeeds, the last
event of the run is the execution of the merge command
`CmdCombineAllNetSignalsUnderSchematicNetPoint`, constructed with the resulting
net point `mNetPoint`; that net point is the first one found at the position,
or, when none was found, the net point of the net-point-creation child, which
was executed right before the merge. -/
theorem merge_is_final_child (K : Collaborators σ ε NC NS NP) (s0 : σ) (pos : Point)
    (netclass netsignal : String) (b : Bool)
    (hok : (performExecute K
      (CmdPlaceSchematicNetPoint.construct s0 pos netclass netsignal)).1 = .returned b) :
    ∃ p pre cmd1 changed,
      (performExecute K
        (CmdPlaceSchematicNetPoint.construct s0 pos netclass netsignal)).2.trace
          = pre ++ [.executed (.CmdCombineAllNetSignalsUnderSchematicNetPoint p) cmd1 changed] ∧
      (performExecute K
        (CmdPlaceSchematicNetPoint.construct s0 pos netclass netsignal)).2.mNetPoint = some p ∧
      (((K.getNetPointsAtScenePos s0 pos).head? = some p ∧ pre = []) ∨
       (K.getNetPointsAtScenePos s0 pos = [] ∧
          ∃ pre0 ns cmd0 changed0,
            pre = pre0 ++ [.executed (.CmdSchematicNetPointAdd ns pos none) cmd0 changed0] ∧
            cmd0.getNetPoint = some p)) := by
  obtain ⟨s1, p, cmd1, s2, hd, hp, hm, hrun⟩ := performExecute_returned K _ b hok
  have hdet := determineNetPoint_returned K _ s1 hd
  rw [hrun]
  have hmem := execNewChildCmd_members K (.CmdCombineAllNetSignalsUnderSchematicNetPoint p) s1
  rw [hm] at hmem
  have htr : ∃ changed, s2.trace = s1.trace ++
      [.executed (.CmdCombineAllNetSignalsUnderSchematicNetPoint p) cmd1 changed] := by
    unfold execNewChildCmd at hm
    cases hx : K.execute (.CmdCombineAllNetSignalsUnderSchematicNetPoint p) s1.project with
    | changed c s =>
      rw [hx] at hm
      simp only [Prod.mk.injEq, Exit.returned.injEq] at hm
      obtain ⟨rfl, rfl⟩ := hm
      exact ⟨true, rfl⟩
    | unchanged c =>
      rw [hx] at hm
      simp only [Prod.mk.injEq, Exit.returned.injEq] at hm
      obtain ⟨rfl, rfl⟩ := hm
      exact ⟨false, rfl⟩
    | threw e s => rw [hx] at hm; simp at hm
  obtain ⟨changed, htr⟩ := htr
  refine ⟨p, s1.trace, cmd1, changed, htr, hmem.2.2.2.trans hp, ?_⟩
  rcases hdet with ⟨hhead, -, htrace⟩ | ⟨hnil, pre0, ns, cmd0, changed0, htrace, hnp⟩
  · exact Or.inl ⟨hhead.trans hp, htrace⟩
  · exact Or.inr ⟨hnil, pre0, ns, cmd0, changed0, htrace, hnp.symm.trans hp⟩

/-- C9, at an instance: the first placement on the empty schematic succeeds and
its last event is the execution of the merge command on the net point
created. -/
theorem merge_is_final_child_witness :
    ∃ p pre cmd1 changed,
      (performExecute (stdCollaborators quietExternals)
        (CmdPlaceSchematicNetPoint.construct emptyProject ⟨1, 0⟩ "default" "")).2.trace
          = pre ++ [.executed (.CmdCombineAllNetSignalsUnderSchematicNetPoint p) cmd1 changed] ∧
      (performExecute (stdCollaborators quietExternals)
        (CmdPlaceSchematicNetPoint.construct emptyProject ⟨1, 0⟩ "default" "")).2.mNetPoint
          = some p ∧
      (((stdCollaborators quietExternals).getNetPointsAtScenePos emptyProject ⟨1, 0⟩).head?
          = some p ∧ pre = [] ∨
       ((stdCollaborators quietExternals).getNetPointsAtScenePos emptyProject ⟨1, 0⟩ = [] ∧
          ∃ pre0 ns cmd0 changed0,
            pre = pre0 ++ [.executed (.CmdSchematicNetPointAdd ns ⟨1, 0⟩ none) cmd0 changed0] ∧
            cmd0.getNetPoint = some p)) :=
  merge_is_final_child (stdCollaborators quietExternals) emptyProject ⟨1, 0⟩ "default" "" true
    (by decide)

/-! ## Uniqueness of names -/

theorem length_le_foldr_max (names : List String) (n : String) (h : n ∈ names) :
    n.length ≤ (names.map String.length).foldr max 0 := by
  induction names with
  | nil => simp at h
  | cons m names ih =>
    rcases List.mem_cons.1 h with rfl | h1
    · simp
    · have := ih h1
      simp only [List.map_cons, List.foldr_cons]
      omega

/-- The name given by `longerName` is not in use. -/
theorem longerName_fresh (names : List String) : longerName names ∉ names := by
  intro h
  have := length_le_foldr_max names _ h
  simp [longerName, String.length] at this

theorem find_name_none_class (l : List NetClass) (n : String)
    (h : l.find? (fun c => c.name = n) = none) : n ∉ l.map (·.name) := by
  intro hm
  obtain ⟨c, hc, rfl⟩ := List.mem_map.1 hm
  have := List.find?_eq_none.1 h c hc
  simp at this

theorem find_name_none_signal (l : List NetSignal) (n : String)
    (h : l.find? (fun c => c.name = n) = none) : n ∉ l.map (·.name) := by
  intro hm
  obtain ⟨c, hc, rfl⟩ := List.mem_map.1 hm
  have := List.find?_eq_none.1 h c hc
  simp at this

/-- On the concrete project no creation child of `performExecute` fails with
`NameCollisionError`: a net class or a net signal with an explicit name is
created only after the lookup by that name found none. -/
theorem determineNetPoint_no_collision (X : Externals) (s0 : Project) (pos : Point)
    (netclass netsignal : String) :
    Exception.NameCollisionError ∉ failures (determineNetPoint (stdCollaborators X)
      (CmdPlaceSchematicNetPoint.construct s0 pos netclass netsignal)).2.trace := by
  unfold determineNetPoint getOrCreateNewNetSignal createNewNetPoint execNewChildCmd
  simp only [stdCollaborators, CmdPlaceSchematicNetPoint.construct]
  cases h1 : s0.netPoints.filter (fun p => p.position = pos) with
  | cons p ps => simp [failures]
  | nil =>
    simp only
    cases h2 : s0.netSignals.find? (fun n => n.name = netsignal) with
    | some ns =>
      by_cases hh : X.canHost pos = true <;>
      simp [Exit.andThen, stdExecute, hh, failures]
    | none =>
      have hs := find_name_none_signal _ _ h2
      cases h3 : s0.netClasses.find? (fun c => c.name = netclass) with
      | some nc =>
        by_cases he : netsignal.isEmpty = true <;> by_cases hh : X.canHost pos = true <;>
        simp [Exit.andThen, stdExecute, hh, he, failures, Project.netSignalNames, hs,
          UndoCommand.getNetSignal]
      | none =>
        have hc := find_name_none_class _ _ h3
        by_cases he : netsignal.isEmpty = true <;> by_cases hh : X.canHost pos = true <;>
        simp [Exit.andThen, stdExecute, hh, he, failures, Project.netSignalNames, hs,
          Project.netClassNames, hc, UndoCommand.getNetSignal, UndoCommand.getNetClass]

/-- C10 (name uniqueness). Let the names of the net classes and of the net
signals of a Circuit be observed by `classNames` and `signalNames`, with: a
lookup by name that finds none only for a name not in the registry; a creation
with an explicit name that adds exactly that name, whether it was taken or not
(no check by the creation command is assumed); an auto-naming creation that
adds a name not already in the registry; a net-point creation that adds no
name. When the class names and the signal names are pairwise distinct before
the call, then after a successful `performExecute` they are pairwise distinct
in the state on which the merge child was executed (before the merge child's
own effect), because `getOrCreateNewNetSignal` creates under an explicit name
only after the lookup by that name found none; the final state is what the
merge child made of that state. -/
theorem names_stay_unique (K : Collaborators σ ε NC NS NP)
    (classNames signalNames : σ → List String)
    (hclassLookup : ∀ s name, K.getNetClassByName s name = none → name ∉ classNames s)
    (hsignalLookup : ∀ s name, K.getNetSignalByName s name = none → name ∉ signalNames s)
    (hclassAdd : ∀ name m s c1 s1, K.execute (.CmdNetClassAdd name m) s = .changed c1 s1 →
      classNames s1 = classNames s ++ [name] ∧ signalNames s1 = signalNames s)
    (hsignalAdd : ∀ nc name m s c1 s1,
      K.execute (.CmdNetSignalAdd nc (some name) m) s = .changed c1 s1 →
      classNames s1 = classNames s ∧ signalNames s1 = signalNames s ++ [name])
    (hautoAdd : ∀ nc m s c1 s1, K.execute (.CmdNetSignalAdd nc none m) s = .changed c1 s1 →
      classNames s1 = classNames s ∧
        ∃ name, name ∉ signalNames s ∧ signalNames s1 = signalNames s ++ [name])
    (hpointAdd : ∀ ns position m s c1 s1,
      K.execute (.CmdSchematicNetPointAdd ns position m) s = .changed c1 s1 →
      classNames s1 = classNames s ∧ signalNames s1 = signalNames s)
    (s0 : σ) (pos : Point) (netclass netsignal : String) (b : Bool)
    (hclasses : (classNames s0).Nodup) (hsignals : (signalNames s0).Nodup)
    (hok : (performExecute K
      (CmdPlaceSchematicNetPoint.construct s0 pos netclass netsignal)).1 = .returned b) :
    (classNames (determineNetPoint K
      (CmdPlaceSchematicNetPoint.construct s0 pos netclass netsignal)).2.project).Nodup ∧
    (signalNames (determineNetPoint K
      (CmdPlaceSchematicNetPoint.construct s0 pos netclass netsignal)).2.project).Nodup ∧
    ∃ p, (determineNetPoint K
        (CmdPlaceSchematicNetPoint.construct s0 pos netclass netsignal)).2.mNetPoint = some p ∧
      (performExecute K
        (CmdPlaceSchematicNetPoint.construct s0 pos netclass netsignal)).2
        = (execNewChildCmd K (.CmdCombineAllNetSignalsUnderSchematicNetPoint p)
            (determineNetPoint K
              (CmdPlaceSchematicNetPoint.construct s0 pos netclass netsignal)).2).2 := by
  obtain ⟨s1, p, cmd1, s2, hd, hp, hm, hrun⟩ := performExecute_returned K _ b hok
  -- a call of `execNewChildCmd` that returns left the state, or changed it by `execute()`
  have hstep : ∀ (cmd : UndoCommand NC NS NP) (st st1 : CmdPlaceSchematicNetPoint σ ε NC NS NP)
      (c1 : UndoCommand NC NS NP), execNewChildCmd K cmd st = (.returned c1, st1) →
      st1.project = st.project ∨ ∃ c, K.execute cmd st.project = .changed c st1.project := by
    intro cmd st st1 c1 h
    unfold execNewChildCmd at h
    cases hx : K.execute cmd st.project with
    | changed c s =>
      rw [hx] at h
      simp only [Prod.mk.injEq, Exit.returned.injEq] at h
      obtain ⟨-, rfl⟩ := h
      exact Or.inr ⟨c, rfl⟩
    | unchanged c =>
      rw [hx] at h
      simp only [Prod.mk.injEq, Exit.returned.injEq] at h
      obtain ⟨-, rfl⟩ := h
      exact Or.inl rfl
    | threw e s => rw [hx] at h; simp at h
  -- lines 117-124: the signal is created under a name the lookup did not find
  have hsignal : ∀ (nc : NC) (st st1 : CmdPlaceSchematicNetPoint σ ε NC NS NP)
      (c1 : UndoCommand NC NS NP),
      (classNames st.project).Nodup → (signalNames st.project).Nodup →
      st.mNetSignalName ∉ signalNames st.project →
      execNewChildCmd K
        (if st.mNetSignalName.isEmpty then .CmdNetSignalAdd nc none none
          else .CmdNetSignalAdd nc (some st.mNetSignalName) none) st = (.returned c1, st1) →
      (classNames st1.project).Nodup ∧ (signalNames st1.project).Nodup := by
    intro nc st st1 c1 hc hs hn h
    by_cases he : st.mNetSignalName.isEmpty = true
    · simp only [he, if_true] at h
      rcases hstep _ _ _ _ h with hsame | ⟨c, hx⟩
      · rw [hsame]; exact ⟨hc, hs⟩
      · obtain ⟨h1, name, hfresh, h2⟩ := hautoAdd nc none st.project c st1.project hx
        rw [h1, h2]
        exact ⟨hc, List.Nodup.append hs (List.nodup_singleton _) (by simpa using hfresh)⟩
    · simp only [he, if_false] at h
      rcases hstep _ _ _ _ h with hsame | ⟨c, hx⟩
      · rw [hsame]; exact ⟨hc, hs⟩
      · obtain ⟨h1, h2⟩ := hsignalAdd nc st.mNetSignalName none st.project c st1.project hx
        rw [h1, h2]
        exact ⟨hc, List.Nodup.append hs (List.nodup_singleton _) (by simpa using hn)⟩
  -- lines 101-126
  have hget : ∀ (r : Option NS) (sg : CmdPlaceSchematicNetPoint σ ε NC NS NP),
      getOrCreateNewNetSignal K
        (CmdPlaceSchematicNetPoint.construct s0 pos netclass netsignal) = (.returned r, sg) →
      (classNames sg.project).Nodup ∧ (signalNames sg.project).Nodup := by
    intro r sg h
    unfold getOrCreateNewNetSignal at h
    cases hsig : K.getNetSignalByName s0 netsignal with
    | some ns =>
      simp only [CmdPlaceSchematicNetPoint.construct, hsig, Prod.mk.injEq] at h
      obtain ⟨-, rfl⟩ := h
      exact ⟨hclasses, hsignals⟩
    | none =>
      have hn : netsignal ∉ signalNames s0 := hsignalLookup s0 netsignal hsig
      cases hcls : K.getNetClassByName s0 netclass with
      | some nc =>
        simp only [CmdPlaceSchematicNetPoint.construct, hsig, hcls, Exit.andThen] at h
        rcases hx : execNewChildCmd K
          (if netsignal.isEmpty then .CmdNetSignalAdd nc none none
            else .CmdNetSignalAdd nc (some netsignal) none)
          ({ project := s0, mPosition := pos, mNetClassName := netclass,
             mNetSignalName := netsignal, mNetPoint := none, mChilds := [],
             trace := [] } : CmdPlaceSchematicNetPoint σ ε NC NS NP) with ⟨c1 | e | a, st1⟩
        · rw [hx] at h
          simp only [Prod.mk.injEq] at h
          obtain ⟨-, rfl⟩ := h
          exact hsignal nc (CmdPlaceSchematicNetPoint.construct s0 pos netclass netsignal) _ c1
            hclasses hsignals hn hx
        · rw [hx] at h; simp at h
        · rw [hx] at h; simp at h
      | none =>
        have hcn : netclass ∉ classNames s0 := hclassLookup s0 netclass hcls
        simp only [CmdPlaceSchematicNetPoint.construct, hsig, hcls, Exit.andThen] at h
        rcases hx0 : execNewChildCmd K (.CmdNetClassAdd netclass none)
          ({ project := s0, mPosition := pos, mNetClassName := netclass,
             mNetSignalName := netsignal, mNetPoint := none, mChilds := [],
             trace := [] } : CmdPlaceSchematicNetPoint σ ε NC NS NP) with ⟨c0 | e | a, sA⟩
        · have hmem := execNewChildCmd_members K (.CmdNetClassAdd netclass none)
            ({ project := s0, mPosition := pos, mNetClassName := netclass,
               mNetSignalName := netsignal, mNetPoint := none, mChilds := [],
               trace := [] } : CmdPlaceSchematicNetPoint σ ε NC NS NP)
          rw [hx0] at h hmem
          simp only at h hmem
          have hA : (classNames sA.project).Nodup ∧ (signalNames sA.project).Nodup ∧
              netsignal ∉ signalNames sA.project := by
            rcases hstep _ _ _ _ hx0 with hsame | ⟨c, hx⟩
            · rw [hsame]; exact ⟨hclasses, hsignals, hn⟩
            · obtain ⟨h1, h2⟩ := hclassAdd netclass none s0 c sA.project hx
              rw [h1, h2]
              exact ⟨List.Nodup.append hclasses (List.nodup_singleton _) (by simpa using hcn),
                hsignals, hn⟩
          cases hnc : c0.getNetClass with
          | none => rw [hnc] at h; simp at h
          | some nc =>
            rw [hnc] at h
            simp only at h
            rcases hx : execNewChildCmd K
              (if sA.mNetSignalName.isEmpty then .CmdNetSignalAdd nc none none
                else .CmdNetSignalAdd nc (some sA.mNetSignalName) none) sA
              with ⟨c1 | e | a, st1⟩
            · rw [hx] at h
              simp only [Prod.mk.injEq] at h
              obtain ⟨-, rfl⟩ := h
              exact hsignal nc sA _ c1 hA.1 hA.2.1 (by rw [hmem.2.2.1]; exact hA.2.2) hx
            · rw [hx] at h; simp at h
            · rw [hx] at h; simp at h
        · rw [hx0] at h; simp at h
        · rw [hx0] at h; simp at h
  -- lines 79-87
  have hdet : (classNames s1.project).Nodup ∧ (signalNames s1.project).Nodup := by
    unfold determineNetPoint at hd
    cases hpts : K.getNetPointsAtScenePos s0 pos with
    | cons q qs =>
      simp only [CmdPlaceSchematicNetPoint.construct, hpts, Prod.mk.injEq, true_and] at hd
      subst hd
      exact ⟨hclasses, hsignals⟩
    | nil =>
      simp only [CmdPlaceSchematicNetPoint.construct, hpts] at hd
      rcases hg : getOrCreateNewNetSignal K
        (CmdPlaceSchematicNetPoint.construct s0 pos netclass netsignal) with ⟨r | e | a, sg⟩
      · have hN := hget r sg hg
        simp only [CmdPlaceSchematicNetPoint.construct] at hg
        rw [hg] at hd
        cases r with
        | none => simp [Exit.andThen] at hd
        | some nsig =>
          simp only [Exit.andThen, createNewNetPoint] at hd
          rcases hx : execNewChildCmd K (.CmdSchematicNetPointAdd nsig sg.mPosition none) sg
            with ⟨c1 | e | a, st1⟩
          · rw [hx] at hd
            simp only [Prod.mk.injEq, true_and] at hd
            subst hd
            simp only
            rcases hstep _ _ _ _ hx with hsame | ⟨c, hxe⟩
            · rw [hsame]; exact hN
            · obtain ⟨h1, h2⟩ := hpointAdd nsig sg.mPosition none sg.project c st1.project hxe
              rw [h1, h2]; exact hN
          · rw [hx] at hd; simp at hd
          · rw [hx] at hd; simp at hd
      · simp only [CmdPlaceSchematicNetPoint.construct] at hg
        rw [hg] at hd; simp [Exit.andThen] at hd
      · simp only [CmdPlaceSchematicNetPoint.construct] at hg
        rw [hg] at hd; simp [Exit.andThen] at hd
  refine ⟨?_, ?_, p, ?_, ?_⟩
  · rw [hd]; exact hdet.1
  · rw [hd]; exact hdet.2
  · rw [hd]; exact hp
  · rw [hrun, hd, hm]

/-- The unchecked creation commands meet the contract of C10: a creation with
an explicit name adds that name, the auto-naming creation adds the auto name,
which is not in use when the auto-naming is fresh, and the net-point creation
adds no name. -/
theorem uncheckedExecute_names (X : Externals) (hfresh : ∀ names, X.autoName names ∉ names) :
    (∀ name m s c1 s1,
      (uncheckedCollaborators X).execute (.CmdNetClassAdd name m) s = .changed c1 s1 →
      s1.netClassNames = s.netClassNames ++ [name] ∧ s1.netSignalNames = s.netSignalNames) ∧
    (∀ nc name m s c1 s1,
      (uncheckedCollaborators X).execute (.CmdNetSignalAdd nc (some name) m) s
        = .changed c1 s1 →
      s1.netClassNames = s.netClassNames ∧ s1.netSignalNames = s.netSignalNames ++ [name]) ∧
    (∀ nc m s c1 s1,
      (uncheckedCollaborators X).execute (.CmdNetSignalAdd nc none m) s = .changed c1 s1 →
      s1.netClassNames = s.netClassNames ∧
        ∃ name, name ∉ s.netSignalNames ∧ s1.netSignalNames = s.netSignalNames ++ [name]) ∧
    (∀ ns position m s c1 s1,
      (uncheckedCollaborators X).execute (.CmdSchematicNetPointAdd ns position m) s
        = .changed c1 s1 →
      s1.netClassNames = s.netClassNames ∧ s1.netSignalNames = s.netSignalNames) := by
  refine ⟨?_, ?_, ?_, ?_⟩
  · intro name m s c1 s1 h
    simp only [uncheckedCollaborators, uncheckedExecute, ChildExit.changed.injEq] at h
    obtain ⟨-, rfl⟩ := h
    simp [Project.netClassNames, Project.netSignalNames]
  · intro nc name m s c1 s1 h
    simp only [uncheckedCollaborators, uncheckedExecute, ChildExit.changed.injEq] at h
    obtain ⟨-, rfl⟩ := h
    simp [Project.netClassNames, Project.netSignalNames]
  · intro nc m s c1 s1 h
    simp only [uncheckedCollaborators, uncheckedExecute, stdExecute,
      ChildExit.changed.injEq] at h
    obtain ⟨-, rfl⟩ := h
    exact ⟨rfl, X.autoName s.netSignalNames, hfresh _,
      by simp [Project.netSignalNames]⟩
  · intro ns position m s c1 s1 h
    simp only [uncheckedCollaborators, uncheckedExecute, stdExecute] at h
    by_cases hh : X.canHost position = true
    · simp only [hh, if_true, ChildExit.changed.injEq] at h
      obtain ⟨-, rfl⟩ := h
      exact ⟨rfl, rfl⟩
    · simp [hh] at h

/-- C10, at an instance: with the unchecked creation commands, on
`twoClassProject` (net classes "A" and "B", net signal "S"), the placement at
the free position (1, 0) with netclass "A" and netsignal "T" finds the class
"A" and creates the signal "T": the names are "A", "B" and "S", "T", pairwise
distinct. -/
theorem names_stay_unique_witness :
    ((determineNetPoint (uncheckedCollaborators quietExternals)
        (CmdPlaceSchematicNetPoint.construct twoClassProject ⟨1, 0⟩ "A" "T")).2.project.netClassNames
        = ["A", "B"] ∧
      (determineNetPoint (uncheckedCollaborators quietExternals)
        (CmdPlaceSchematicNetPoint.construct twoClassProject ⟨1, 0⟩ "A" "T")).2.project.netSignalNames
        = ["S", "T"]) ∧
    (determineNetPoint (uncheckedCollaborators quietExternals)
      (CmdPlaceSchematicNetPoint.construct twoClassProject ⟨1, 0⟩ "A" "T")).2.project.netClassNames.Nodup ∧
    (determineNetPoint (uncheckedCollaborators quietExternals)
      (CmdPlaceSchematicNetPoint.construct twoClassProject ⟨1, 0⟩ "A" "T")).2.project.netSignalNames.Nodup :=
  have hc := uncheckedExecute_names quietExternals longerName_fresh
  have h := names_stay_unique (uncheckedCollaborators quietExternals)
    Project.netClassNames Project.netSignalNames
    (fun s name hn => find_name_none_class s.netClasses name hn)
    (fun s name hn => find_name_none_signal s.netSignals name hn)
    hc.1 hc.2.1 hc.2.2.1 hc.2.2.2
    twoClassProject ⟨1, 0⟩ "A" "T" true (by decide) (by decide) (by decide)
  ⟨⟨by decide, by decide⟩, h.1, h.2.1⟩

/-! ## The scope guard -/

theorem rollbacks_append (t u : List (Event ε NC NS NP)) :
    rollbacks (t ++ u) = rollbacks t + rollbacks u := by
  induction t with
  | nil => simp [rollbacks]
  | cons ev t ih =>
    cases ev <;> simp [rollbacks, ih]
    omega

theorem rollbacks_map_undone (cs : List (UndoCommand NC NS NP)) :
    rollbacks (cs.map (Event.undone : UndoCommand NC NS NP → Event ε NC NS NP)) = 0 := by
  induction cs with
  | nil => rfl
  | cons c cs ih => simpa [rollbacks] using ih

/-- Inside the scope of `performExecute` the rollback action is not invoked. -/
theorem performExecuteScope_rollbacks (K : Collaborators σ ε NC NS NP)
    (self : CmdPlaceSchematicNetPoint σ ε NC NS NP) (h : rollbacks self.trace = 0) :
    rollbacks (performExecuteScope K self).2.1.trace = 0 :=
  performExecuteScope_spec K (fun _ s => rollbacks s.trace = 0)
    (fun cmd s hs => by
      simp only at hs ⊢
      unfold execNewChildCmd
      cases K.execute cmd s.project <;> simp [rollbacks_append, rollbacks, hs])
    (fun _ _ hs => hs) (fun _ _ hs => hs) self h

/-- C15 (scoped rollback guard). In every run of `performExecute` on a newly
constructed command the rollback action `performUndo()` is invoked exactly once
when `performExecute` exits with an exception and is not invoked when it
returns; the guard is dismissed exactly in the runs whose scope is left by the
`return` of line 94, after the merge child. -/
theorem rollback_guard (K : Collaborators σ ε NC NS NP) (s0 : σ) (pos : Point)
    (netclass netsignal : String) :
    (∀ e, (performExecute K
        (CmdPlaceSchematicNetPoint.construct s0 pos netclass netsignal)).1 = .threw e →
      rollbacks (performExecute K
        (CmdPlaceSchematicNetPoint.construct s0 pos netclass netsignal)).2.trace = 1) ∧
    (∀ b, (performExecute K
        (CmdPlaceSchematicNetPoint.construct s0 pos netclass netsignal)).1 = .returned b →
      rollbacks (performExecute K
        (CmdPlaceSchematicNetPoint.construct s0 pos netclass netsignal)).2.trace = 0) ∧
    ((performExecuteScope K
        (CmdPlaceSchematicNetPoint.construct s0 pos netclass netsignal)).2.2 = true ↔
      ∃ b, (performExecute K
        (CmdPlaceSchematicNetPoint.construct s0 pos netclass netsignal)).1 = .returned b) := by
  have hr := performExecuteScope_rollbacks K
    (CmdPlaceSchematicNetPoint.construct s0 pos netclass netsignal) rfl
  have hd := performExecuteScope_dismissed K
    (CmdPlaceSchematicNetPoint.construct s0 pos netclass netsignal)
  unfold performExecute
  rcases hsc : performExecuteScope K
    (CmdPlaceSchematicNetPoint.construct s0 pos netclass netsignal) with ⟨b | e | a, s1, d⟩
  all_goals rw [hsc] at hr hd
  all_goals simp only at hr hd
  · have hdt : d = true := hd.2 ⟨b, rfl⟩
    subst hdt
    simp [scopeGuardExit, hr]
  · have hdf : d = false := by
      cases d with
      | false => rfl
      | true => simp at hd
    subst hdf
    have ht : rollbacks (scopeGuardExit K false s1).trace = 1 := by
      simp only [scopeGuardExit, Bool.false_eq_true, if_false]
      rw [performUndo_trace, rollbacks_append, rollbacks_append, rollbacks_map_undone, hr]
      rfl
    simp [ht]
  · have hdf : d = false := by
      cases d with
      | false => rfl
      | true => simp at hd
    subst hdf
    simp

/-- C15, at an instance: the run on the empty schematic at a position which
cannot host a net point throws, and the rollback is invoked once. -/
theorem rollback_guard_witness :
    rollbacks (performExecute (stdCollaborators quietExternals)
      (CmdPlaceSchematicNetPoint.construct emptyProject ⟨-1, 0⟩ "default" "")).2.trace = 1 :=
  (rollback_guard (stdCollaborators quietExternals) emptyProject ⟨-1, 0⟩ "default" "").1
    .InvalidGeometryError (by decide)

/-! ## The children submitted during a run -/

theorem submitted_append (t u : List (Event ε NC NS NP)) :
    submitted (t ++ u) = submitted t ++ submitted u := by
  induction t with
  | nil => rfl
  | cons ev t ih => cases ev <;> simp [submitted, ih]

/-- Each call of `execNewChildCmd` submits exactly the command it is given,
however its `execute()` ends. -/
theorem execNewChildCmd_submitted (K : Collaborators σ ε NC NS NP)
    (cmd : UndoCommand NC NS NP) (self : CmdPlaceSchematicNetPoint σ ε NC NS NP) :
    submitted (execNewChildCmd K cmd self).2.trace = submitted self.trace ++ [cmd] := by
  unfold execNewChildCmd
  cases K.execute cmd self.project <;> simp [submitted_append, submitted]

/-- The children submitted by `getOrCreateNewNetSignal`: none when the signal
is found; the net-signal creation when the class is found; the net-class
creation, followed by the net-signal creation unless the function stops
before. -/
theorem getOrCreateNewNetSignal_submitted (K : Collaborators σ ε NC NS NP)
    (self : CmdPlaceSchematicNetPoint σ ε NC NS NP) :
    ∃ L, submitted (getOrCreateNewNetSignal K self).2.trace = submitted self.trace ++ L ∧
      match K.getNetSignalByName self.project self.mNetSignalName with
      | some _ => L = []
      | none =>
        match K.getNetClassByName self.project self.mNetClassName with
        | some nc => L = [netSignalAddCmd nc self.mNetSignalName]
        | none =>
          (L = [.CmdNetClassAdd self.mNetClassName none] ∧
            ∀ r, (getOrCreateNewNetSignal K self).1 ≠ .returned r) ∨
          ∃ nc, L = [.CmdNetClassAdd self.mNetClassName none,
            netSignalAddCmd nc self.mNetSignalName] := by
  unfold getOrCreateNewNetSignal
  cases hsig : K.getNetSignalByName self.project self.mNetSignalName with
  | some ns => exact ⟨[], by simp, rfl⟩
  | none =>
    cases hcls : K.getNetClassByName self.project self.mNetClassName with
    | some nc =>
      refine ⟨[netSignalAddCmd nc self.mNetSignalName], ?_, rfl⟩
      have h := execNewChildCmd_submitted K (netSignalAddCmd nc self.mNetSignalName) self
      simp only [Exit.andThen]
      unfold netSignalAddCmd at h
      rcases hx : execNewChildCmd K (if self.mNetSignalName.isEmpty then
          .CmdNetSignalAdd nc none none
        else .CmdNetSignalAdd nc (some self.mNetSignalName) none) self with ⟨c | e | a, s1⟩ <;>
        rw [hx] at h <;> exact h
    | none =>
      have h0 := execNewChildCmd_submitted K (.CmdNetClassAdd self.mNetClassName none) self
      have hm := execNewChildCmd_members K (.CmdNetClassAdd self.mNetClassName none) self
      simp only [Exit.andThen]
      rcases hx0 : execNewChildCmd K (.CmdNetClassAdd self.mNetClassName none) self
        with ⟨c | e | a, s1⟩
      · rw [hx0] at h0 hm
        simp only at h0 hm ⊢
        cases hnc : c.getNetClass with
        | none =>
          exact ⟨[.CmdNetClassAdd self.mNetClassName none], h0, Or.inl ⟨rfl, by simp⟩⟩
        | some nc =>
          refine ⟨[.CmdNetClassAdd self.mNetClassName none,
            netSignalAddCmd nc self.mNetSignalName], ?_, Or.inr ⟨nc, rfl⟩⟩
          have h := execNewChildCmd_submitted K (netSignalAddCmd nc self.mNetSignalName) s1
          unfold netSignalAddCmd at h ⊢
          simp only [hm.2.2.1]
          rcases hx : execNewChildCmd K (if self.mNetSignalName.isEmpty then
              .CmdNetSignalAdd nc none none
            else .CmdNetSignalAdd nc (some self.mNetSignalName) none) s1 with ⟨c | e | a, s2⟩ <;>
            rw [hx] at h <;> simp only [h, h0, List.append_assoc, List.singleton_append]
      · rw [hx0] at h0
        exact ⟨[.CmdNetClassAdd self.mNetClassName none], h0, Or.inl ⟨rfl, by simp⟩⟩
      · rw [hx0] at h0
        exact ⟨[.CmdNetClassAdd self.mNetClassName none], h0, Or.inl ⟨rfl, by simp⟩⟩

/-- The mode of the command constructed at lines 117-122. -/
theorem netSignalAddCmd_mode (nc nc1 : NC) (n : String) (name : Option String)
    (m : Option NS)
    (h : (netSignalAddCmd nc n : UndoCommand NC NS NP) = .CmdNetSignalAdd nc1 name m) :
    m = none ∧ (name = none ↔ n = "") ∧ (n ≠ "" → name = some n) := by
  unfold netSignalAddCmd at h
  by_cases he : n.isEmpty = true
  · have hn := (String.isEmpty_iff n).1 he
    simp only [he, if_true, UndoCommand.CmdNetSignalAdd.injEq] at h
    obtain ⟨-, rfl, rfl⟩ := h
    simp [hn]
  · have hn : n ≠ "" := fun hn => he ((String.isEmpty_iff n).2 hn)
    simp only [he, if_false, UndoCommand.CmdNetSignalAdd.injEq] at h
    obtain ⟨-, rfl, rfl⟩ := h
    simp [hn]

/-- C16 (auto-name selection). When no net signal with the requested name
exists, every net-signal-creation child which `getOrCreateNewNetSignal`
constructs is in auto-naming mode (no requested name) if and only if the
requested signal name is empty, and otherwise carries exactly the requested
name; and such a child is constructed in every run in which the function
returns. -/
theorem netSignalAdd_mode (K : Collaborators σ ε NC NS NP) (s0 : σ) (pos : Point)
    (netclass netsignal : String) (hsig : K.getNetSignalByName s0 netsignal = none) :
    (∀ nc name m, UndoCommand.CmdNetSignalAdd nc name m ∈
        submitted (getOrCreateNewNetSignal K
          (CmdPlaceSchematicNetPoint.construct s0 pos netclass netsignal)).2.trace →
      m = none ∧ (name = none ↔ netsignal = "") ∧ (netsignal ≠ "" → name = some netsignal)) ∧
    (∀ r, (getOrCreateNewNetSignal K
        (CmdPlaceSchematicNetPoint.construct s0 pos netclass netsignal)).1 = .returned r →
      ∃ nc name, UndoCommand.CmdNetSignalAdd nc name none ∈
        submitted (getOrCreateNewNetSignal K
          (CmdPlaceSchematicNetPoint.construct s0 pos netclass netsignal)).2.trace) := by
  obtain ⟨L, hL, hcase⟩ := getOrCreateNewNetSignal_submitted K
    (CmdPlaceSchematicNetPoint.construct s0 pos netclass netsignal)
  have hsig1 : K.getNetSignalByName
      (CmdPlaceSchematicNetPoint.construct s0 pos netclass netsignal :
        CmdPlaceSchematicNetPoint σ ε NC NS NP).project
      (CmdPlaceSchematicNetPoint.construct s0 pos netclass netsignal :
        CmdPlaceSchematicNetPoint σ ε NC NS NP).mNetSignalName = none := hsig
  rw [hsig1] at hcase
  simp only at hcase
  have hL1 : submitted (getOrCreateNewNetSignal K
      (CmdPlaceSchematicNetPoint.construct s0 pos netclass netsignal)).2.trace = L := by
    rw [hL]; rfl
  rw [hL1]
  have hex : ∀ nc : NC, ∃ nc1 name,
      (netSignalAddCmd nc netsignal : UndoCommand NC NS NP) = .CmdNetSignalAdd nc1 name none := by
    intro nc
    unfold netSignalAddCmd
    split <;> exact ⟨_, _, rfl⟩
  cases hcls : K.getNetClassByName
      (CmdPlaceSchematicNetPoint.construct s0 pos netclass netsignal :
        CmdPlaceSchematicNetPoint σ ε NC NS NP).project
      (CmdPlaceSchematicNetPoint.construct s0 pos netclass netsignal :
        CmdPlaceSchematicNetPoint σ ε NC NS NP).mNetClassName with
  | some nc =>
    rw [hcls] at hcase
    simp only at hcase
    subst hcase
    constructor
    · intro nc1 name m hmem
      exact netSignalAddCmd_mode nc nc1 netsignal name m (List.mem_singleton.1 hmem).symm
    · intro r _
      obtain ⟨nc1, name, h⟩ := hex nc
      exact ⟨nc1, name, by simp [CmdPlaceSchematicNetPoint.construct, h]⟩
  | none =>
    rw [hcls] at hcase
    simp only at hcase
    rcases hcase with ⟨rfl, hnot⟩ | ⟨nc, rfl⟩
    · constructor
      · intro nc1 name m hmem
        simp at hmem
      · intro r hr
        exact absurd hr (hnot r)
    · constructor
      · intro nc1 name m hmem
        simp only [List.mem_cons, List.mem_singleton, List.not_mem_nil, or_false] at hmem
        rcases hmem with h | h
        · cases h
        · exact netSignalAddCmd_mode nc nc1 netsignal name m h.symm
      · intro r _
        obtain ⟨nc1, name, h⟩ := hex nc
        exact ⟨nc1, name, by simp [CmdPlaceSchematicNetPoint.construct, h]⟩

/-- C16, at an instance: on `onePointProject` no net signal is named "N7"; the
net-signal-creation child constructed at (1, 0) for "N7" carries the name
"N7". -/
theorem netSignalAdd_mode_witness :
    UndoCommand.CmdNetSignalAdd ⟨"default"⟩ (some "N7") none ∈
      submitted (getOrCreateNewNetSignal (stdCollaborators quietExternals)
        (CmdPlaceSchematicNetPoint.construct onePointProject ⟨1, 0⟩ "default" "N7")).2.trace ∧
    ((none : Option NetSignal) = none ∧
      ((some "N7" : Option String) = none ↔ "N7" = "") ∧
      ("N7" ≠ "" → (some "N7" : Option String) = some "N7")) :=
  ⟨by decide,
   (netSignalAdd_mode (stdCollaborators quietExternals) onePointProject ⟨1, 0⟩ "default" "N7"
    (by decide)).1 ⟨"default"⟩ (some "N7") none (by decide)⟩

/-! ## Number and order of the children -/

theorem netSignalAddCmd_kind (nc : NC) (n : String) :
    (netSignalAddCmd nc n : UndoCommand NC NS NP).kind = .createSignal := by
  unfold netSignalAddCmd
  split <;> rfl

/-- The kinds of the children submitted by the statements before the merge,
when they return. -/
theorem determineNetPoint_kinds (K : Collaborators σ ε NC NS NP)
    (self s1 : CmdPlaceSchematicNetPoint σ ε NC NS NP)
    (h : determineNetPoint K self = (.returned (), s1)) :
    (submitted s1.trace).map UndoCommand.kind =
      (submitted self.trace).map UndoCommand.kind ++
        match K.getNetPointsAtScenePos self.project self.mPosition with
        | _ :: _ => []
        | [] =>
          match K.getNetSignalByName self.project self.mNetSignalName with
          | some _ => [.createPoint]
          | none =>
            match K.getNetClassByName self.project self.mNetClassName with
            | some _ => [.createSignal, .createPoint]
            | none => [.createClass, .createSignal, .createPoint] := by
  unfold determineNetPoint at h
  cases hpts : K.getNetPointsAtScenePos self.project self.mPosition with
  | cons p ps =>
    rw [hpts] at h
    simp only [Prod.mk.injEq, true_and] at h
    subst h
    simp
  | nil =>
    rw [hpts] at h
    simp only at h ⊢
    obtain ⟨L, hL, hcase⟩ := getOrCreateNewNetSignal_submitted K self
    rcases hg : getOrCreateNewNetSignal K self with ⟨r | e | a, sg⟩
    · rw [hg] at h hL hcase
      cases r with
      | none => simp [Exit.andThen] at h
      | some nsig =>
        simp only [Exit.andThen, createNewNetPoint] at h
        have hp := execNewChildCmd_submitted K
          (.CmdSchematicNetPointAdd nsig sg.mPosition none) sg
        rcases hx : execNewChildCmd K (.CmdSchematicNetPointAdd nsig sg.mPosition none) sg
          with ⟨c | e | a, s2⟩
        · rw [hx] at h hp
          simp only [Prod.mk.injEq, true_and] at h
          subst h
          simp only at hp hL ⊢
          rw [hp, hL]
          cases hsig : K.getNetSignalByName self.project self.mNetSignalName with
          | some ns =>
            rw [hsig] at hcase
            simp only at hcase
            subst hcase
            simp [UndoCommand.kind]
          | none =>
            rw [hsig] at hcase
            cases hcls : K.getNetClassByName self.project self.mNetClassName with
            | some nc =>
              rw [hcls] at hcase
              simp only at hcase
              subst hcase
              simp [netSignalAddCmd_kind]
              simp [UndoCommand.kind]
            | none =>
              rw [hcls] at hcase
              simp only at hcase
              rcases hcase with ⟨-, hnot⟩ | ⟨nc, rfl⟩
              · exact absurd rfl (hnot (some nsig))
              · simp [netSignalAddCmd_kind]
                simp [UndoCommand.kind]
        · rw [hx] at h; simp at h
        · rw [hx] at h; simp at h
    · rw [hg] at h; simp [Exit.andThen] at h
    · rw [hg] at h; simp [Exit.andThen] at h

theorem kept_append (t u : List (Event ε NC NS NP)) : kept (t ++ u) = kept t ++ kept u := by
  induction t with
  | nil => rfl
  | cons ev t ih =>
    cases ev with
    | executed c c1 ch => cases ch <;> simp [kept, ih]
    | failed c e => simp [kept, ih]
    | rollback => simp [kept, ih]
    | undone c => simp [kept, ih]

theorem kept_map_undone (cs : List (UndoCommand NC NS NP)) :
    kept (cs.map (Event.undone : UndoCommand NC NS NP → Event ε NC NS NP)) = [] := by
  induction cs with
  | nil => rfl
  | cons c cs ih => simpa [kept] using ih

theorem foldl_undoChild_mChilds (K : Collaborators σ ε NC NS NP)
    (cs : List (UndoCommand NC NS NP)) (self : CmdPlaceSchematicNetPoint σ ε NC NS NP) :
    (cs.foldl (undoChild K) self).mChilds = self.mChilds ∧
    (cs.foldl (undoChild K) self).mNetPoint = self.mNetPoint := by
  induction cs generalizing self with
  | nil => exact ⟨rfl, rfl⟩
  | cons c cs ih =>
    simp only [List.foldl_cons]
    exact ⟨(ih _).1, (ih _).2⟩

/-- The rollback leaves the children in the group and the net point of the
command as they are. -/
theorem scopeGuardExit_members (K : Collaborators σ ε NC NS NP) (dismissed : Bool)
    (self : CmdPlaceSchematicNetPoint σ ε NC NS NP) :
    (scopeGuardExit K dismissed self).mChilds = self.mChilds ∧
    (scopeGuardExit K dismissed self).mNetPoint = self.mNetPoint := by
  unfold scopeGuardExit
  cases dismissed with
  | true => exact ⟨rfl, rfl⟩
  | false =>
    simp only [Bool.false_eq_true, if_false, performUndo]
    exact foldl_undoChild_mChilds K _ _

theorem scopeGuardExit_kept (K : Collaborators σ ε NC NS NP) (dismissed : Bool)
    (self : CmdPlaceSchematicNetPoint σ ε NC NS NP) :
    kept (scopeGuardExit K dismissed self).trace = kept self.trace := by
  unfold scopeGuardExit
  cases dismissed with
  | true => rfl
  | false =>
    simp only [Bool.false_eq_true, if_false]
    rw [performUndo_trace, kept_append, kept_append, kept_map_undone]
    simp [kept]

/-- The children the group holds are those whose `execute()` returned `true`. -/
theorem performExecute_mChilds (K : Collaborators σ ε NC NS NP)
    (self : CmdPlaceSchematicNetPoint σ ε NC NS NP) (h : self.mChilds = kept self.trace) :
    (performExecute K self).2.mChilds = kept (performExecute K self).2.trace := by
  have hs := performExecuteScope_spec K (fun _ s => s.mChilds = kept s.trace)
    (fun cmd s hs => by
      simp only at hs ⊢
      unfold execNewChildCmd
      cases K.execute cmd s.project <;> simp [kept_append, kept, hs])
    (fun _ _ hs => hs) (fun _ _ hs => hs) self h
  simp only at hs
  unfold performExecute
  rcases hsc : performExecuteScope K self with ⟨b | e | a, s1, d⟩
  all_goals rw [hsc] at hs
  all_goals simp only at hs ⊢
  · rw [(scopeGuardExit_members K d s1).1, scopeGuardExit_kept, hs]
  · rw [(scopeGuardExit_members K d s1).1, scopeGuardExit_kept, hs]
  · exact hs

/-- The exceptions thrown by children during `performExecute`: none when it
returns or aborts, exactly the one propagated when it throws. -/
theorem performExecute_failures (K : Collaborators σ ε NC NS NP)
    (self : CmdPlaceSchematicNetPoint σ ε NC NS NP) (h : failures self.trace = []) :
    failures (performExecute K self).2.trace =
      match (performExecute K self).1 with
      | .threw e => [e]
      | _ => [] := by
  have hf := performExecuteScope_failures K self h
  unfold performExecute
  rcases hsc : performExecuteScope K self with ⟨b | e | a, s1, d⟩
  all_goals rw [hsc] at hf
  all_goals simp only [scopeGuardExit_failures] at hf ⊢
  all_goals exact hf

/-- When no child failed and every executed child reported a change, the
children the group holds are as many as the children submitted. -/
theorem kept_length (t : List (Event ε NC NS NP)) (hf : failures t = [])
    (hrec : ∀ cmd c1 ch, Event.executed cmd c1 ch ∈ t → ch = true) :
    (kept t).length = (submitted t).length := by
  induction t with
  | nil => rfl
  | cons ev t ih =>
    cases ev with
    | executed c c1 ch =>
      have hch : ch = true := hrec c c1 ch (List.mem_cons_self _ _)
      subst hch
      simp only [failures] at hf
      simp [kept, submitted, ih hf (fun a b d hm => hrec a b d (List.mem_cons_of_mem _ hm))]
    | failed c e => simp [failures] at hf
    | rollback =>
      simp only [failures] at hf
      simp [kept, submitted, ih hf (fun a b d hm => hrec a b d (List.mem_cons_of_mem _ hm))]
    | undone c =>
      simp only [failures] at hf
      simp [kept, submitted, ih hf (fun a b d hm => hrec a b d (List.mem_cons_of_mem _ hm))]

/-- C17 (number and order of the children). When `performExecute` succeeds, the
child commands whose `execute()` was called are, in order, a suffix of
[create-class, create-signal, create-point, merge] determined by the initial
state: the merge alone when a net point exists at the position; create-point
and merge when none exists but the named signal exists; create-signal,
create-point and merge when the signal is missing but the named class exists;
all four otherwise. They are between 1 and 4, and when every executed child
is recorded by the group (each reported a change) the child count of the
group is their number. -/
theorem children_sequence (K : Collaborators σ ε NC NS NP) (s0 : σ) (pos : Point)
    (netclass netsignal : String) (b : Bool)
    (hok : (performExecute K
      (CmdPlaceSchematicNetPoint.construct s0 pos netclass netsignal)).1 = .returned b) :
    (submitted (performExecute K
      (CmdPlaceSchematicNetPoint.construct s0 pos netclass netsignal)).2.trace).map
        UndoCommand.kind =
      (match K.getNetPointsAtScenePos s0 pos with
        | _ :: _ => [.merge]
        | [] =>
          match K.getNetSignalByName s0 netsignal with
          | some _ => [.createPoint, .merge]
          | none =>
            match K.getNetClassByName s0 netclass with
            | some _ => [.createSignal, .createPoint, .merge]
            | none => [.createClass, .createSignal, .createPoint, .merge]) ∧
    1 ≤ (submitted (performExecute K
      (CmdPlaceSchematicNetPoint.construct s0 pos netclass netsignal)).2.trace).length ∧
    (submitted (performExecute K
      (CmdPlaceSchematicNetPoint.construct s0 pos netclass netsignal)).2.trace).length ≤ 4 ∧
    ((∀ cmd c1 ch, Event.executed cmd c1 ch ∈ (performExecute K
        (CmdPlaceSchematicNetPoint.construct s0 pos netclass netsignal)).2.trace → ch = true) →
      getChildCount (performExecute K
        (CmdPlaceSchematicNetPoint.construct s0 pos netclass netsignal)).2 =
      (submitted (performExecute K
        (CmdPlaceSchematicNetPoint.construct s0 pos netclass netsignal)).2.trace).length) := by
  have hkept := performExecute_mChilds K
    (CmdPlaceSchematicNetPoint.construct s0 pos netclass netsignal) rfl
  have hfail := performExecute_failures K
    (CmdPlaceSchematicNetPoint.construct s0 pos netclass netsignal) rfl
  rw [hok] at hfail
  simp only at hfail
  obtain ⟨s1, p, cmd1, s2, hd, hp, hm, hrun⟩ := performExecute_returned K _ b hok
  have hkinds := determineNetPoint_kinds K _ s1 hd
  have hsub := execNewChildCmd_submitted K (.CmdCombineAllNetSignalsUnderSchematicNetPoint p) s1
  rw [hm] at hsub
  simp only at hsub
  have hall : (submitted (performExecute K
      (CmdPlaceSchematicNetPoint.construct s0 pos netclass netsignal)).2.trace).map
        UndoCommand.kind =
      (match K.getNetPointsAtScenePos s0 pos with
        | _ :: _ => [.merge]
        | [] =>
          match K.getNetSignalByName s0 netsignal with
          | some _ => [.createPoint, .merge]
          | none =>
            match K.getNetClassByName s0 netclass with
            | some _ => [.createSignal, .createPoint, .merge]
            | none => [.createClass, .createSignal, .createPoint, .merge]) := by
    rw [hrun]
    simp only
    rw [hsub, List.map_append, hkinds]
    simp only [CmdPlaceSchematicNetPoint.construct, submitted, List.map_nil, List.nil_append,
      List.map_cons, UndoCommand.kind]
    cases K.getNetPointsAtScenePos s0 pos with
    | cons q qs => rfl
    | nil =>
      cases K.getNetSignalByName s0 netsignal with
      | some ns => rfl
      | none =>
        cases K.getNetClassByName s0 netclass with
        | some nc => rfl
        | none => rfl
  have hlen := congrArg List.length hall
  rw [List.length_map] at hlen
  have hbound : 1 ≤ (submitted (performExecute K
      (CmdPlaceSchematicNetPoint.construct s0 pos netclass netsignal)).2.trace).length ∧
      (submitted (performExecute K
        (CmdPlaceSchematicNetPoint.construct s0 pos netclass netsignal)).2.trace).length ≤ 4 := by
    rw [hlen]
    cases K.getNetPointsAtScenePos s0 pos with
    | cons q qs => simp
    | nil =>
      cases K.getNetSignalByName s0 netsignal with
      | some ns => simp
      | none =>
        cases K.getNetClassByName s0 netclass with
        | some nc => simp
        | none => simp
  refine ⟨hall, hbound.1, hbound.2, ?_⟩
  intro hrec
  unfold getChildCount
  rw [hkept]
  exact kept_length _ hfail hrec

/-- C17, at an instance: the first placement on the empty schematic submits the
four children. -/
theorem children_sequence_witness :
    (submitted (performExecute (stdCollaborators quietExternals)
      (CmdPlaceSchematicNetPoint.construct emptyProject ⟨1, 0⟩ "default" "")).2.trace).map
        UndoCommand.kind = [.createClass, .createSignal, .createPoint, .merge] ∧
    1 ≤ (submitted (performExecute (stdCollaborators quietExternals)
      (CmdPlaceSchematicNetPoint.construct emptyProject ⟨1, 0⟩ "default" "")).2.trace).length :=
  have h := children_sequence (stdCollaborators quietExternals) emptyProject ⟨1, 0⟩
    "default" "" true (by decide)
  ⟨h.1, h.2.1⟩

/-! ## First placement on the empty schematic -/

/-- C12 (first placement on an empty schematic). On the empty Circuit and
NetGraph, at a position which can host a net point and with a merge
collaborator that does not fail, executing the command with netclass "default"
and an empty signal name calls `execute()` on exactly four children, in this
order: the creation of the net class "default", the auto-naming creation of a
net signal under that class, the creation of a net point at the position bound
to that signal, and the merge on that net point; `performExecute` returns
`true`. -/
theorem first_placement (X : Externals) (pos : Point) (hhost : X.canHost pos = true)
    (hmerge : ∀ p s, X.combine p s ≠ .inconsistent) :
    submitted (performExecute (stdCollaborators X)
      (CmdPlaceSchematicNetPoint.construct emptyProject pos "default" "")).2.trace =
      [.CmdNetClassAdd "default" none,
       .CmdNetSignalAdd ⟨"default"⟩ none none,
       .CmdSchematicNetPointAdd ⟨X.autoName [], ⟨"default"⟩⟩ pos none,
       .CmdCombineAllNetSignalsUnderSchematicNetPoint ⟨pos, ⟨X.autoName [], ⟨"default"⟩⟩⟩] ∧
    (performExecute (stdCollaborators X)
      (CmdPlaceSchematicNetPoint.construct emptyProject pos "default" "")).1 = .returned true := by
  have hempty : "".isEmpty = true := rfl
  cases hc : X.combine ⟨pos, ⟨X.autoName [], ⟨"default"⟩⟩⟩
      { netClasses := [⟨"default"⟩], netSignals := [⟨X.autoName [], ⟨"default"⟩⟩],
        netPoints := [⟨pos, ⟨X.autoName [], ⟨"default"⟩⟩⟩] } with
  | inconsistent => exact absurd hc (hmerge _ _)
  | nothing =>
    simp [performExecute, performExecuteScope, determineNetPoint, getOrCreateNewNetSignal,
      createNewNetPoint, mergeAndReturn, execNewChildCmd, Exit.andThen, stdCollaborators,
      stdExecute, CmdPlaceSchematicNetPoint.construct, emptyProject, Project.netClassNames,
      Project.netSignalNames, UndoCommand.getNetClass, UndoCommand.getNetSignal,
      UndoCommand.getNetPoint, hempty, hhost, hc, scopeGuardExit, getChildCount, submitted]
  | merged s1 =>
    simp [performExecute, performExecuteScope, determineNetPoint, getOrCreateNewNetSignal,
      createNewNetPoint, mergeAndReturn, execNewChildCmd, Exit.andThen, stdCollaborators,
      stdExecute, CmdPlaceSchematicNetPoint.construct, emptyProject, Project.netClassNames,
      Project.netSignalNames, UndoCommand.getNetClass, UndoCommand.getNetSignal,
      UndoCommand.getNetPoint, hempty, hhost, hc, scopeGuardExit, getChildCount, submitted]

/-- C12, at an instance: the position (1, 0), with nothing to merge. -/
theorem first_placement_witness :
    submitted (performExecute (stdCollaborators quietExternals)
      (CmdPlaceSchematicNetPoint.construct emptyProject ⟨1, 0⟩ "default" "")).2.trace =
      [.CmdNetClassAdd "default" none,
       .CmdNetSignalAdd ⟨"default"⟩ none none,
       .CmdSchematicNetPointAdd ⟨quietExternals.autoName [], ⟨"default"⟩⟩ ⟨1, 0⟩ none,
       .CmdCombineAllNetSignalsUnderSchematicNetPoint
         ⟨⟨1, 0⟩, ⟨quietExternals.autoName [], ⟨"default"⟩⟩⟩] ∧
    (performExecute (stdCollaborators quietExternals)
      (CmdPlaceSchematicNetPoint.construct emptyProject ⟨1, 0⟩ "default" "")).1
        = .returned true :=
  first_placement quietExternals ⟨1, 0⟩ (by decide) (fun _ _ h => by simp [quietExternals] at h)

/-! ## The order of the rollback -/

/-- The events of the scope of `performExecute` on a newly constructed command
are the executions of children, followed, when an exception is thrown, by the
failure of one more child; the group holds the children that reported a
change. -/
theorem performExecuteScope_events (K : Collaborators σ ε NC NS NP)
    (s0 : σ) (pos : Point) (netclass netsignal : String) :
    match (performExecuteScope K
      (CmdPlaceSchematicNetPoint.construct s0 pos netclass netsignal)).1.void with
    | .threw e => ∃ (cs : List (UndoCommand NC NS NP × UndoCommand NC NS NP × Bool))
          (c : UndoCommand NC NS NP),
        (performExecuteScope K
          (CmdPlaceSchematicNetPoint.construct s0 pos netclass netsignal)).2.1.trace
          = cs.map (fun x => Event.executed x.1 x.2.1 x.2.2) ++ [.failed c e] ∧
        (performExecuteScope K
          (CmdPlaceSchematicNetPoint.construct s0 pos netclass netsignal)).2.1.mChilds
          = kept (cs.map (fun x => (Event.executed x.1 x.2.1 x.2.2 : Event ε NC NS NP)))
    | _ => ∃ (cs : List (UndoCommand NC NS NP × UndoCommand NC NS NP × Bool)),
        (performExecuteScope K
          (CmdPlaceSchematicNetPoint.construct s0 pos netclass netsignal)).2.1.trace
          = cs.map (fun x => Event.executed x.1 x.2.1 x.2.2) ∧
        (performExecuteScope K
          (CmdPlaceSchematicNetPoint.construct s0 pos netclass netsignal)).2.1.mChilds
          = kept (cs.map (fun x => (Event.executed x.1 x.2.1 x.2.2 : Event ε NC NS NP))) := by
  have h := performExecuteScope_spec K
    (fun r s =>
      match r with
      | .threw e => ∃ (cs : List (UndoCommand NC NS NP × UndoCommand NC NS NP × Bool))
            (c : UndoCommand NC NS NP),
          s.trace = cs.map (fun x => Event.executed x.1 x.2.1 x.2.2) ++ [.failed c e] ∧
          s.mChilds
            = kept (cs.map (fun x => (Event.executed x.1 x.2.1 x.2.2 : Event ε NC NS NP)))
      | _ => ∃ (cs : List (UndoCommand NC NS NP × UndoCommand NC NS NP × Bool)),
          s.trace = cs.map (fun x => Event.executed x.1 x.2.1 x.2.2) ∧
          s.mChilds
            = kept (cs.map (fun x => (Event.executed x.1 x.2.1 x.2.2 : Event ε NC NS NP))))
    (fun cmd s hs => by
      simp only at hs
      obtain ⟨cs, htr, hch⟩ := hs
      unfold execNewChildCmd
      cases hx : K.execute cmd s.project with
      | changed c1 s1 =>
        simp only [Exit.void]
        refine ⟨cs ++ [(cmd, c1, true)], ?_, ?_⟩
        · simp [htr]
        · simp [hch, kept_append, kept]
      | unchanged c1 =>
        simp only [Exit.void]
        refine ⟨cs ++ [(cmd, c1, false)], ?_, ?_⟩
        · simp [htr]
        · simp [hch, kept_append, kept]
      | threw e s1 =>
        simp only [Exit.void]
        exact ⟨cs, cmd, by simp [htr], by simp [hch]⟩)
    (fun _ _ hs => hs) (fun _ _ hs => hs)
    (CmdPlaceSchematicNetPoint.construct s0 pos netclass netsignal) ⟨[], rfl, rfl⟩
  exact h

/-- When each of the children executed reported a change, the group holds the
command objects of all of them. -/
theorem kept_map_executed (cs : List (UndoCommand NC NS NP × UndoCommand NC NS NP × Bool))
    (h : ∀ x ∈ cs, x.2.2 = true) :
    kept (cs.map (fun x => (Event.executed x.1 x.2.1 x.2.2 : Event ε NC NS NP)))
      = cs.map (fun x => x.2.1) := by
  induction cs with
  | nil => rfl
  | cons x cs ih =>
    have hx : x.2.2 = true := h x (List.mem_cons_self _ _)
    simp only [List.map_cons, hx, kept]
    rw [ih (fun y hy => h y (List.mem_cons_of_mem _ hy))]

/-- C14 (reverse-order rollback). A run of `performExecute` on a newly
constructed command that throws `e` is: the children c1..ck executed, the next
child `c` failed with `e`, the rollback was invoked, and `undo()` was called,
each once and in the order ck, ..., c1, on exactly the command objects the
group holds, which are those of c1..ck that reported a change: all of c1..ck
when each of them reported a change (a child that reported no change is not
held and has changed nothing). The child that failed is not undone. The
Circuit/NetGraph at the end is the one the failing child left with these
`undo()` applied to it in that order. -/
theorem rollback_reverse_order (K : Collaborators σ ε NC NS NP)
    (s0 : σ) (pos : Point) (netclass netsignal : String) (e : ε)
    (hthrew : (performExecute K
      (CmdPlaceSchematicNetPoint.construct s0 pos netclass netsignal)).1 = .threw e) :
    ∃ (cs : List (UndoCommand NC NS NP × UndoCommand NC NS NP × Bool))
        (c : UndoCommand NC NS NP),
      (performExecute K
        (CmdPlaceSchematicNetPoint.construct s0 pos netclass netsignal)).2.trace
        = cs.map (fun x => Event.executed x.1 x.2.1 x.2.2) ++ [.failed c e, .rollback] ++
          (kept (cs.map (fun x => (Event.executed x.1 x.2.1 x.2.2 : Event ε NC NS NP)))).reverse.map
            .undone ∧
      (performExecute K
        (CmdPlaceSchematicNetPoint.construct s0 pos netclass netsignal)).2.project
        = (kept (cs.map (fun x => (Event.executed x.1 x.2.1 x.2.2 : Event ε NC NS NP)))).foldr
            (fun child project => K.undo child project)
            (performExecuteScope K
              (CmdPlaceSchematicNetPoint.construct s0 pos netclass netsignal)).2.1.project ∧
      ((∀ x ∈ cs, x.2.2 = true) →
        kept (cs.map (fun x => (Event.executed x.1 x.2.1 x.2.2 : Event ε NC NS NP)))
          = cs.map (fun x => x.2.1)) := by
  have hev := performExecuteScope_events K s0 pos netclass netsignal
  have hdis := performExecuteScope_dismissed K
    (CmdPlaceSchematicNetPoint.construct s0 pos netclass netsignal)
  unfold performExecute at hthrew ⊢
  rcases hsc : performExecuteScope K
    (CmdPlaceSchematicNetPoint.construct s0 pos netclass netsignal) with ⟨b | e1 | a, s1, d⟩
  · rw [hsc] at hthrew; simp at hthrew
  · rw [hsc] at hthrew hev hdis
    simp only [Exit.void, Exit.threw.injEq] at hthrew hev hdis ⊢
    subst hthrew
    have hd : d = false := by
      cases d with
      | false => rfl
      | true => simp at hdis
    subst hd
    obtain ⟨cs, c, htr, hch⟩ := hev
    refine ⟨cs, c, ?_, ?_, kept_map_executed cs⟩
    · simp only [scopeGuardExit, Bool.false_eq_true, if_false]
      rw [performUndo_trace]
      simp [htr, hch]
    · simp only [scopeGuardExit, Bool.false_eq_true, if_false]
      rw [performUndo_project]
      simp [undoAll, hch]
  · rw [hsc] at hthrew; simp at hthrew

/-- C14, at an instance: on the empty schematic, at a position which cannot
host a net point, the net class and the net signal are created, the creation
of the net point fails, and the net signal is undone before the net class:
the project is empty again. -/
theorem rollback_reverse_order_witness :
    (performExecute (stdCollaborators quietExternals)
      (CmdPlaceSchematicNetPoint.construct emptyProject ⟨-1, 0⟩ "default" "")).2.trace =
      [.executed (.CmdNetClassAdd "default" none)
          (.CmdNetClassAdd "default" (some ⟨"default"⟩)) true,
       .executed (.CmdNetSignalAdd ⟨"default"⟩ none none)
          (.CmdNetSignalAdd ⟨"default"⟩ none (some ⟨"N", ⟨"default"⟩⟩)) true,
       .failed (.CmdSchematicNetPointAdd ⟨"N", ⟨"default"⟩⟩ ⟨-1, 0⟩ none) .InvalidGeometryError,
       .rollback,
       .undone (.CmdNetSignalAdd ⟨"default"⟩ none (some ⟨"N", ⟨"default"⟩⟩)),
       .undone (.CmdNetClassAdd "default" (some ⟨"default"⟩))] ∧
    ∃ (cs : List (UndoCommand NetClass NetSignal SI_NetPoint ×
        UndoCommand NetClass NetSignal SI_NetPoint × Bool))
        (c : UndoCommand NetClass NetSignal SI_NetPoint),
      (performExecute (stdCollaborators quietExternals)
        (CmdPlaceSchematicNetPoint.construct emptyProject ⟨-1, 0⟩ "default" "")).2.trace
        = cs.map (fun x => Event.executed x.1 x.2.1 x.2.2) ++
          [.failed c .InvalidGeometryError, .rollback] ++
          (kept (cs.map (fun x =>
            (Event.executed x.1 x.2.1 x.2.2 :
              Event Exception NetClass NetSignal SI_NetPoint)))).reverse.map .undone ∧
      (performExecute (stdCollaborators quietExternals)
        (CmdPlaceSchematicNetPoint.construct emptyProject ⟨-1, 0⟩ "default" "")).2.project
        = (kept (cs.map (fun x =>
            (Event.executed x.1 x.2.1 x.2.2 :
              Event Exception NetClass NetSignal SI_NetPoint)))).foldr
            (fun child project => (stdCollaborators quietExternals).undo child project)
            (performExecuteScope (stdCollaborators quietExternals)
              (CmdPlaceSchematicNetPoint.construct emptyProject ⟨-1, 0⟩ "default"
                "")).2.1.project ∧
      ((∀ x ∈ cs, x.2.2 = true) →
        kept (cs.map (fun x =>
          (Event.executed x.1 x.2.1 x.2.2 : Event Exception NetClass NetSignal SI_NetPoint)))
          = cs.map (fun x => x.2.1)) :=
  ⟨by decide,
   rollback_reverse_order (stdCollaborators quietExternals) emptyProject ⟨-1, 0⟩ "default" ""
    .InvalidGeometryError (by decide)⟩

/-! ## The assertions -/

/-- A call of `execNewChildCmd` does not abort; when it returns, the child
yields its entity provided every child does. -/
theorem execNewChildCmd_yields (K : Collaborators σ ε NC NS NP)
    (hyield : ∀ cmd s c1, (K.execute cmd s = .unchanged c1 ∨
      ∃ s1, K.execute cmd s = .changed c1 s1) → cmd.yields c1 = true)
    (cmd : UndoCommand NC NS NP) (self : CmdPlaceSchematicNetPoint σ ε NC NS NP) :
    match (execNewChildCmd K cmd self).1 with
    | .returned c1 => cmd.yields c1 = true
    | .threw _ => True
    | .aborted _ => False := by
  unfold execNewChildCmd
  cases hx : K.execute cmd self.project with
  | changed c1 s1 => exact hyield cmd _ c1 (Or.inr ⟨s1, hx⟩)
  | unchanged c1 => exact hyield cmd _ c1 (Or.inl hx)
  | threw e s1 => trivial

/-- When every child yields its entity, `getOrCreateNewNetSignal` does not
abort (the assertion of line 114 holds) and the net signal it returns is not
null. -/
theorem getOrCreateNewNetSignal_nonnull (K : Collaborators σ ε NC NS NP)
    (hyield : ∀ cmd s c1, (K.execute cmd s = .unchanged c1 ∨
      ∃ s1, K.execute cmd s = .changed c1 s1) → cmd.yields c1 = true)
    (self : CmdPlaceSchematicNetPoint σ ε NC NS NP) :
    match (getOrCreateNewNetSignal K self).1 with
    | .returned r => r.isSome = true
    | .threw _ => True
    | .aborted _ => False := by
  have hsigcmd : ∀ (nc : NC) (st : CmdPlaceSchematicNetPoint σ ε NC NS NP),
      match (Exit.andThen (execNewChildCmd K
          (if st.mNetSignalName.isEmpty then .CmdNetSignalAdd nc none none
            else .CmdNetSignalAdd nc (some st.mNetSignalName) none) st)
          (fun cmd self2 => (Exit.returned cmd.getNetSignal, self2))).1 with
      | .returned r => r.isSome = true
      | .threw _ => True
      | .aborted _ => False := by
    intro nc st
    have h := execNewChildCmd_yields K hyield
      (if st.mNetSignalName.isEmpty then .CmdNetSignalAdd nc none none
        else .CmdNetSignalAdd nc (some st.mNetSignalName) none) st
    rcases hx : execNewChildCmd K
      (if st.mNetSignalName.isEmpty then .CmdNetSignalAdd nc none none
        else .CmdNetSignalAdd nc (some st.mNetSignalName) none) st with ⟨c | e | a, s2⟩
    · rw [hx] at h
      simp only [Exit.andThen]
      simp only at h
      split at h <;> exact h
    · simp [Exit.andThen]
    · rw [hx] at h
      exact h.elim
  unfold getOrCreateNewNetSignal
  cases hsig : K.getNetSignalByName self.project self.mNetSignalName with
  | some ns => simp
  | none =>
    cases hcls : K.getNetClassByName self.project self.mNetClassName with
    | some nc => exact hsigcmd nc self
    | none =>
      have h0 := execNewChildCmd_yields K hyield (.CmdNetClassAdd self.mNetClassName none) self
      simp only
      rcases hx0 : execNewChildCmd K (.CmdNetClassAdd self.mNetClassName none) self
        with ⟨c | e | a, s1⟩
      · rw [hx0] at h0
        simp only [UndoCommand.yields] at h0
        cases hnc : c.getNetClass with
        | none => rw [hnc] at h0; simp at h0
        | some nc =>
          simp only [Exit.andThen, hnc]
          exact hsigcmd nc s1
      · simp [Exit.andThen]
      · rw [hx0] at h0
        exact h0.elim

/-- When every child yields its entity, the statements before the merge do not
abort and, when they return, `mNetPoint` is not null. -/
theorem determineNetPoint_nonnull (K : Collaborators σ ε NC NS NP)
    (hyield : ∀ cmd s c1, (K.execute cmd s = .unchanged c1 ∨
      ∃ s1, K.execute cmd s = .changed c1 s1) → cmd.yields c1 = true)
    (self : CmdPlaceSchematicNetPoint σ ε NC NS NP) :
    match (determineNetPoint K self).1 with
    | .returned _ => (determineNetPoint K self).2.mNetPoint.isSome = true
    | .threw _ => True
    | .aborted _ => False := by
  unfold determineNetPoint
  cases hpts : K.getNetPointsAtScenePos self.project self.mPosition with
  | cons p ps => simp
  | nil =>
    have hg := getOrCreateNewNetSignal_nonnull K hyield self
    simp only
    rcases hgx : getOrCreateNewNetSignal K self with ⟨r | e | a, s1⟩
    · rw [hgx] at hg
      simp only at hg
      cases r with
      | none => simp at hg
      | some nsig =>
        simp only [Exit.andThen, createNewNetPoint]
        have hp := execNewChildCmd_yields K hyield
          (.CmdSchematicNetPointAdd nsig s1.mPosition none) s1
        rcases hx : execNewChildCmd K (.CmdSchematicNetPointAdd nsig s1.mPosition none) s1
          with ⟨c | e | a, s2⟩
        · rw [hx] at hp
          simpa [UndoCommand.yields] using hp
        · simp
        · rw [hx] at hp
          exact hp.elim
    · simp [Exit.andThen]
    · rw [hgx] at hg
      exact hg.elim

theorem submitted_map_undone (cs : List (UndoCommand NC NS NP)) :
    submitted (cs.map (Event.undone : UndoCommand NC NS NP → Event ε NC NS NP)) = [] := by
  induction cs with
  | nil => rfl
  | cons c cs ih => simpa [submitted] using ih

theorem scopeGuardExit_submitted (K : Collaborators σ ε NC NS NP) (dismissed : Bool)
    (self : CmdPlaceSchematicNetPoint σ ε NC NS NP) :
    submitted (scopeGuardExit K dismissed self).trace = submitted self.trace := by
  unfold scopeGuardExit
  cases dismissed with
  | true => rfl
  | false =>
    simp only [Bool.false_eq_true, if_false]
    rw [performUndo_trace, submitted_append, submitted_append, submitted_map_undone]
    simp [submitted]

/-- The statements before the merge submit creation children only. -/
theorem determineNetPoint_creations (K : Collaborators σ ε NC NS NP)
    (self : CmdPlaceSchematicNetPoint σ ε NC NS NP)
    (h : ∀ c ∈ submitted self.trace, c.isCreation = true) :
    ∀ c ∈ submitted (determineNetPoint K self).2.trace, c.isCreation = true :=
  determineNetPoint_spec K (fun _ s => ∀ c ∈ submitted s.trace, c.isCreation = true)
    (fun cmd s hcmd hs => by
      simp only at hs ⊢
      rw [execNewChildCmd_submitted]
      intro c hc
      rcases List.mem_append.1 hc with h1 | h1
      · exact hs c h1
      · rw [List.mem_singleton.1 h1]; exact hcmd)
    (fun _ _ hs => hs) (fun _ _ hs => hs) self h

/-- A merge command submitted during `performExecute` was constructed from the
net point held in `mNetPoint`. -/
theorem performExecute_merge_netpoint (K : Collaborators σ ε NC NS NP) (s0 : σ) (pos : Point)
    (netclass netsignal : String) (p : NP)
    (hmem : UndoCommand.CmdCombineAllNetSignalsUnderSchematicNetPoint p ∈
      submitted (performExecute K
        (CmdPlaceSchematicNetPoint.construct s0 pos netclass netsignal)).2.trace) :
    (performExecute K
      (CmdPlaceSchematicNetPoint.construct s0 pos netclass netsignal)).2.mNetPoint = some p := by
  have hcre := determineNetPoint_creations K
    (CmdPlaceSchematicNetPoint.construct s0 pos netclass netsignal)
    (fun c hc => by simp [CmdPlaceSchematicNetPoint.construct, submitted] at hc)
  have hno : ∀ (t : List (UndoCommand NC NS NP)), (∀ c ∈ t, c.isCreation = true) →
      UndoCommand.CmdCombineAllNetSignalsUnderSchematicNetPoint p ∉ t := by
    intro t ht hm
    have := ht _ hm
    simp [UndoCommand.isCreation] at this
  unfold performExecute performExecuteScope at hmem ⊢
  rcases hd : determineNetPoint K
    (CmdPlaceSchematicNetPoint.construct s0 pos netclass netsignal) with ⟨u | e1 | a, s1⟩
  · rw [hd] at hmem hcre
    simp only at hmem hcre ⊢
    unfold mergeAndReturn at hmem ⊢
    cases hp : s1.mNetPoint with
    | none =>
      rw [hp] at hmem
      exact absurd hmem (hno _ hcre)
    | some q =>
      rw [hp] at hmem
      simp only at hmem ⊢
      have hsub := execNewChildCmd_submitted K
        (.CmdCombineAllNetSignalsUnderSchematicNetPoint q) s1
      have hmm := execNewChildCmd_members K
        (.CmdCombineAllNetSignalsUnderSchematicNetPoint q) s1
      rcases hx : execNewChildCmd K (.CmdCombineAllNetSignalsUnderSchematicNetPoint q) s1
        with ⟨c | e | a, s2⟩
      all_goals rw [hx] at hmem hsub hmm
      all_goals simp only [scopeGuardExit_submitted] at hmem hsub hmm ⊢
      all_goals rw [hsub] at hmem
      all_goals rcases List.mem_append.1 hmem with h1 | h1
      all_goals first
        | exact absurd h1 (hno _ hcre)
        | skip
      all_goals simp only [List.mem_singleton,
        UndoCommand.CmdCombineAllNetSignalsUnderSchematicNetPoint.injEq] at h1
      all_goals subst h1
      · rw [(scopeGuardExit_members K _ s2).2, hmm.2.2.2, hp]
      · rw [(scopeGuardExit_members K _ s2).2, hmm.2.2.2, hp]
      · rw [hmm.2.2.2, hp]
  · rw [hd] at hmem hcre
    simp only [scopeGuardExit_submitted] at hmem hcre
    exact absurd hmem (hno _ hcre)
  · rw [hd] at hmem hcre
    exact absurd hmem (hno _ hcre)

/-- C18 (assertion validity). When every creation child whose `execute()`
returns yields a non-null entity, no run of `performExecute` aborts: the
assertion of line 114 on the resolved net class and the assertion of line 88
on the resulting net point hold whenever they are reached (and the net signal
dereferenced at line 84 is not null); every merge command of the run was
constructed from the non-null net point held in `mNetPoint`. -/
theorem assertions_hold (K : Collaborators σ ε NC NS NP)
    (hyield : ∀ cmd s c1, (K.execute cmd s = .unchanged c1 ∨
      ∃ s1, K.execute cmd s = .changed c1 s1) → cmd.yields c1 = true)
    (s0 : σ) (pos : Point) (netclass netsignal : String) :
    (∀ a, (performExecute K
      (CmdPlaceSchematicNetPoint.construct s0 pos netclass netsignal)).1 ≠ .aborted a) ∧
    (∀ p, UndoCommand.CmdCombineAllNetSignalsUnderSchematicNetPoint p ∈
        submitted (performExecute K
          (CmdPlaceSchematicNetPoint.construct s0 pos netclass netsignal)).2.trace →
      (performExecute K
        (CmdPlaceSchematicNetPoint.construct s0 pos netclass netsignal)).2.mNetPoint
          = some p) := by
  refine ⟨?_, fun p hp => performExecute_merge_netpoint K s0 pos netclass netsignal p hp⟩
  intro a
  have hdet := determineNetPoint_nonnull K hyield
    (CmdPlaceSchematicNetPoint.construct s0 pos netclass netsignal)
  unfold performExecute performExecuteScope
  rcases hd : determineNetPoint K
    (CmdPlaceSchematicNetPoint.construct s0 pos netclass netsignal) with ⟨u | e1 | a1, s1⟩
  · rw [hd] at hdet
    simp only at hdet ⊢
    unfold mergeAndReturn
    cases hp : s1.mNetPoint with
    | none => rw [hp] at hdet; simp at hdet
    | some q =>
      have hm := execNewChildCmd_yields K hyield
        (.CmdCombineAllNetSignalsUnderSchematicNetPoint q) s1
      simp only
      rcases hx : execNewChildCmd K (.CmdCombineAllNetSignalsUnderSchematicNetPoint q) s1
        with ⟨c | e | a2, s2⟩
      · simp
      · simp
      · rw [hx] at hm
        exact hm.elim
  · simp
  · rw [hd] at hdet
    exact hdet.elim

/-- On the concrete project every child whose `execute()` returns yields its
entity. -/
theorem stdExecute_yields (X : Externals)
    (cmd c1 : UndoCommand NetClass NetSignal SI_NetPoint) (s : Project)
    (h : (stdCollaborators X).execute cmd s = .unchanged c1 ∨
      ∃ s1, (stdCollaborators X).execute cmd s = .changed c1 s1) :
    cmd.yields c1 = true := by
  simp only [stdCollaborators] at h
  cases cmd with
  | CmdNetClassAdd name m =>
    by_cases hn : name ∈ s.netClassNames
    · simp [stdExecute, hn] at h
    · simp only [stdExecute, hn, if_false] at h
      rcases h with h | ⟨s1, h⟩
      · simp at h
      · simp only [ChildExit.changed.injEq] at h
        obtain ⟨rfl, -⟩ := h
        rfl
  | CmdNetSignalAdd nc name m =>
    cases name with
    | none =>
      simp only [stdExecute] at h
      rcases h with h | ⟨s1, h⟩
      · simp at h
      · simp only [ChildExit.changed.injEq] at h
        obtain ⟨rfl, -⟩ := h
        rfl
    | some n =>
      by_cases hn : n ∈ s.netSignalNames
      · simp [stdExecute, hn] at h
      · simp only [stdExecute, hn, if_false] at h
        rcases h with h | ⟨s1, h⟩
        · simp at h
        · simp only [ChildExit.changed.injEq] at h
          obtain ⟨rfl, -⟩ := h
          rfl
  | CmdSchematicNetPointAdd nsig position m =>
    by_cases hh : X.canHost position = true
    · simp only [stdExecute, hh, if_true] at h
      rcases h with h | ⟨s1, h⟩
      · simp at h
      · simp only [ChildExit.changed.injEq] at h
        obtain ⟨rfl, -⟩ := h
        rfl
    · simp [stdExecute, hh] at h
  | CmdCombineAllNetSignalsUnderSchematicNetPoint p => rfl

/-- C18, at an instance: on the concrete project the first placement on the
empty schematic does not stop at the assertion on the net point. -/
theorem assertions_hold_witness :
    (performExecute (stdCollaborators quietExternals)
      (CmdPlaceSchematicNetPoint.construct emptyProject ⟨1, 0⟩ "default" "")).1
        ≠ .aborted .assertNetPoint :=
  (assertions_hold (stdCollaborators quietExternals)
    (fun cmd s c1 h => stdExecute_yields quietExternals cmd c1 s h)
    emptyProject ⟨1, 0⟩ "default" "").1 .assertNetPoint

/-! ## Idempotent reuse -/

theorem find_name_eq_none (l : List NetSignal) (n : String) (h : n ∉ l.map (·.name)) :
    l.find? (fun c => c.name = n) = none := by
  rw [List.find?_eq_none]
  intro c hc hn
  exact h (List.mem_map.2 ⟨c, hc, by simpa using hn⟩)

/-- One placement with an empty signal name on the concrete project, at a free
position which can host a net point, with nothing to merge and no net signal
of empty name: one net signal is added, with the auto name, and one net point,
at the position. -/
theorem place_autonamed (X : Externals) (hquiet : ∀ p s, X.combine p s = .nothing)
    (netclass : String) (pos : Point) (s : Project)
    (hfree : (stdCollaborators X).getNetPointsAtScenePos s pos = [])
    (hhost : X.canHost pos = true) (hnamed : "" ∉ s.netSignalNames) :
    ∃ nc, (performExecute (stdCollaborators X)
        (CmdPlaceSchematicNetPoint.construct s pos netclass "")).2.project.netSignals
        = s.netSignals ++ [⟨X.autoName s.netSignalNames, nc⟩] ∧
      (performExecute (stdCollaborators X)
        (CmdPlaceSchematicNetPoint.construct s pos netclass "")).2.project.netPoints
        = s.netPoints ++ [⟨pos, ⟨X.autoName s.netSignalNames, nc⟩⟩] := by
  have hempty : "".isEmpty = true := rfl
  have hsig := find_name_eq_none s.netSignals "" hnamed
  simp only [stdCollaborators] at hfree
  cases hcls : s.netClasses.find? (fun c => c.name = netclass) with
  | some nc =>
    refine ⟨nc, ?_, ?_⟩ <;>
    simp [performExecute, performExecuteScope, determineNetPoint, getOrCreateNewNetSignal,
      createNewNetPoint, mergeAndReturn, execNewChildCmd, Exit.andThen, stdCollaborators,
      stdExecute, CmdPlaceSchematicNetPoint.construct, Project.netSignalNames,
      UndoCommand.getNetClass, UndoCommand.getNetSignal, UndoCommand.getNetPoint, hempty,
      hhost, hquiet, hfree, hsig, hcls, scopeGuardExit, getChildCount]
  | none =>
    have hc := find_name_none_class _ _ hcls
    refine ⟨⟨netclass⟩, ?_, ?_⟩ <;>
    simp [performExecute, performExecuteScope, determineNetPoint, getOrCreateNewNetSignal,
      createNewNetPoint, mergeAndReturn, execNewChildCmd, Exit.andThen, stdCollaborators,
      stdExecute, CmdPlaceSchematicNetPoint.construct, Project.netSignalNames,
      Project.netClassNames, hc,
      UndoCommand.getNetClass, UndoCommand.getNetSignal, UndoCommand.getNetPoint, hempty,
      hhost, hquiet, hfree, hsig, hcls, scopeGuardExit, getChildCount]

/-- The name given by `longerName` is not empty. -/
theorem longerName_ne_empty (names : List String) : longerName names ≠ "" := by
  intro h
  have := congrArg String.length h
  simp [longerName, String.length] at this

/-- C13 (auto-naming uniqueness). The empty name stands for "no name given"
(line 118; §6: "empty signal name ⇒ auto-generate"), so no net signal carries
it: none of the initial circuit, and the auto-naming yields a name that is
neither in use nor empty. On the concrete Circuit, when the merge never has
anything to union:
executing the command with an empty signal name once at each of N pairwise
distinct positions, none of which hosts a net point and each of which can host
one, adds exactly N net signals to the circuit; their names are pairwise
distinct and differ from the names in use before. No call reuses, through the
lookup by the empty name, a signal created by an earlier call. -/
theorem autonames_distinct (X : Externals)
    (hfresh : ∀ names, X.autoName names ∉ names)
    (hnonblank : ∀ names, X.autoName names ≠ "")
    (hquiet : ∀ p s, X.combine p s = .nothing)
    (netclass : String) (positions : List Point) (s0 : Project)
    (hdistinct : positions.Nodup)
    (hfree : ∀ pos ∈ positions, (stdCollaborators X).getNetPointsAtScenePos s0 pos = [])
    (hhost : ∀ pos ∈ positions, X.canHost pos = true)
    (hnamed : "" ∉ s0.netSignalNames) :
    ∃ created : List NetSignal,
      (placeEach (stdCollaborators X) netclass "" positions s0).netSignals
        = s0.netSignals ++ created ∧
      created.length = positions.length ∧
      (created.map (·.name)).Nodup ∧
      ∀ n ∈ created.map (·.name), n ∉ s0.netSignalNames := by
  induction positions generalizing s0 with
  | nil => exact ⟨[], by simp [placeEach], rfl, List.nodup_nil, by simp⟩
  | cons pos rest ih =>
    obtain ⟨nc, hsigs, hpts⟩ := place_autonamed X hquiet netclass pos s0
      (hfree pos (List.mem_cons_self _ _)) (hhost pos (List.mem_cons_self _ _)) hnamed
    have hd := List.nodup_cons.1 hdistinct
    have hnames1 : (performExecute (stdCollaborators X)
        (CmdPlaceSchematicNetPoint.construct s0 pos netclass "")).2.project.netSignalNames
        = s0.netSignalNames ++ [X.autoName s0.netSignalNames] := by
      simp [Project.netSignalNames, hsigs]
    have hnamed1 : "" ∉ (performExecute (stdCollaborators X)
        (CmdPlaceSchematicNetPoint.construct s0 pos netclass "")).2.project.netSignalNames := by
      rw [hnames1]
      intro hm
      rcases List.mem_append.1 hm with h | h
      · exact hnamed h
      · exact hnonblank _ (List.mem_singleton.1 h).symm
    have hfree1 : ∀ q ∈ rest, (stdCollaborators X).getNetPointsAtScenePos
        (performExecute (stdCollaborators X)
          (CmdPlaceSchematicNetPoint.construct s0 pos netclass "")).2.project q = [] := by
      intro q hq
      have h0 := hfree q (List.mem_cons_of_mem _ hq)
      have hne : pos ≠ q := fun h => hd.1 (h ▸ hq)
      have h1 : s0.netPoints.filter (fun p => p.position = q) = [] := h0
      show (performExecute (stdCollaborators X)
        (CmdPlaceSchematicNetPoint.construct s0 pos netclass "")).2.project.netPoints.filter
          (fun p => p.position = q) = []
      rw [hpts, List.filter_append, h1]
      simp [hne]
    obtain ⟨created, h1, h2, h3, h4⟩ := ih _ hd.2 hfree1
      (fun q hq => hhost q (List.mem_cons_of_mem _ hq)) hnamed1
    refine ⟨⟨X.autoName s0.netSignalNames, nc⟩ :: created, ?_, ?_, ?_, ?_⟩
    · simp only [placeEach]
      rw [h1, hsigs]
      simp
    · simp [h2]
    · simp only [List.map_cons, List.nodup_cons]
      refine ⟨fun hmem => h4 _ hmem ?_, h3⟩
      rw [hnames1]
      simp
    · intro n hn
      simp only [List.map_cons, List.mem_cons] at hn
      rcases hn with rfl | hn
      · exact hfresh _
      · intro hin
        refine h4 n hn ?_
        rw [hnames1]
        exact List.mem_append_left _ hin

/-- C13, at an instance: two placements on the empty schematic, at (1, 0) and
(2, 0). -/
theorem autonames_distinct_witness :
    ∃ created : List NetSignal,
      (placeEach (stdCollaborators quietExternals) "default" "" [⟨1, 0⟩, ⟨2, 0⟩]
        emptyProject).netSignals = emptyProject.netSignals ++ created ∧
      created.length = [(⟨1, 0⟩ : Point), ⟨2, 0⟩].length ∧
      (created.map (·.name)).Nodup ∧
      ∀ n ∈ created.map (·.name), n ∉ emptyProject.netSignalNames :=
  autonames_distinct quietExternals longerName_fresh longerName_ne_empty (fun _ _ => rfl)
    "default" [⟨1, 0⟩, ⟨2, 0⟩] emptyProject (by decide) (fun _ _ => rfl) (by decide) (by decide)

end LibrePCB
